import Mathlib

/-!
# Overwitch: the clock-domain crossing engine of `src/src/overwitch.c`

A shallow embedding of the JACK client of Overwitch (the file-scope variables,
the two configuration callbacks, the loop filter, the two converter feeders and
the process cycle) together with theorems about it.

Conventions of the embedding

* The file-scope variables and the function-local `static` variables of
  `overwitch.c` are the fields of `State`; every C function is a function on
  `State` (returning its C return value next to the new state when it has one).
  A function body is a sequence of `let`s, one per assignment and in the order
  of the source, followed by one record update that stores the new values.
* `double` is modelled by exact rational arithmetic (`ℚ`): no rounding, no
  infinities, no NaN.  A quotient by zero is `0` in `ℚ`, where C gives an
  infinity or a NaN: the embedding does not describe a value that depends on
  such a quotient, and a theorem about a value computed from a quotient assumes
  that the divisor is not zero.
* `jack_nframes_t` is an unsigned 32 bit integer: values are kept in `Nat` and
  every arithmetic result is reduced with `to_uint32` (mod `2^32`).  `int` is a
  signed 32 bit integer: values are kept in `Int` and reduced with `to_int32`.
  A conversion from `double` truncates toward zero; C leaves the conversion of
  an out-of-range value undefined, the embedding wraps it.
* Buffers of samples are byte addressed memories `Mem`; one
  `jack_default_audio_sample_t` is `sample_bytes = 4` bytes.  Buffers have no
  bound in the embedding; a `size_t` is a `Nat`, and a quotient of naturals by
  zero is `0` (in C it is undefined).
* overbridge.h is not part of the sources: its macros and the integer values of
  the status enumerators are the parameter `overbridge_h` of the functions that
  use them.
* The lock around `ob.status` and the observations is not modelled: every
  function runs atomically.  What the transport thread and the host do between
  two calls is an input of the embedding (`process_in`, `cycle`).
* The libraries (JACK ring buffer, libsamplerate) are modelled by their
  contract; one call of the converter is described by a `src_call`.
* `debug_print` and `error_print` only write diagnostics and are omitted.
-/

namespace Overwitch

/-! ## Machine arithmetic -/

/-- Reduction of an integer to `jack_nframes_t` (unsigned, 32 bit). -/
def to_uint32 (x : Int) : Nat := (x % 4294967296).toNat

/-- Reduction of an integer to `int` (two's complement, 32 bit). -/
def to_int32 (x : Int) : Int := (x + 2147483648) % 4294967296 - 2147483648

/-- Rounding toward zero, the integral part kept by a C conversion from `double`
and by `trunc` of math.h. -/
def c_trunc (q : ℚ) : Int := if 0 ≤ q then ⌊q⌋ else ⌈q⌉

/-- Conversion `double` to `int`. -/
def double_to_int (q : ℚ) : Int := to_int32 (c_trunc q)

/-- Conversion `double` to `jack_nframes_t`. -/
def double_to_uint32 (q : ℚ) : Nat := to_uint32 (c_trunc q)

/-- The function `int abs (int)` of stdlib.h. -/
def c_abs (n : Int) : Int := to_int32 (if n < 0 then -n else n)

/-! ## Constants and types declared outside `overwitch.c` -/

/-- Modelled from the spec: `exp` and `M_PI` of math.h, used by the loop filter,
are parameters of the embedding (they are not rational functions). -/
structure math_h where
  exp : ℚ → ℚ
  M_PI : ℚ

/-- Modelled from the spec: `overbridge_status_t` is declared in overbridge.h,
which is not under src/.  The spec gives the status word the four values
STARTUP, TUNE, RUN, STOP. -/
inductive overbridge_status_t where
  | OB_STATUS_STARTUP
  | OB_STATUS_TUNE
  | OB_STATUS_RUN
  | OB_STATUS_STOP
  deriving DecidableEq, Repr

open overbridge_status_t

/-- The place of a status in the life cycle STARTUP, TUNE, RUN, STOP of the
spec, the order in which status monotonicity is stated.  It is not the integer
value of the enumerator, which is what the code compares (`overbridge_h`). -/
def overbridge_status_t.life_cycle : overbridge_status_t → Nat
  | OB_STATUS_STARTUP => 0
  | OB_STATUS_TUNE => 1
  | OB_STATUS_RUN => 2
  | OB_STATUS_STOP => 3

/-- Modelled from the spec: what overbridge.h, which is not under src/, declares
and `overwitch.c` uses; all of it is a parameter here.  `OB_SAMPLE_RATE` (the
fixed device sample rate S_d) and `OB_FRAMES_PER_TRANSFER` (the device frames per
transfer T) are macros.  `status_value` is the integer value of each enumerator
of `overbridge_status_t`, which the tests `status < OB_STATUS_RUN` of lines 277
and 397 compare.  In the spec the phases STARTUP and TUNE come before RUN and
data is written to the j2o ring "if status ≥ RUN", so STARTUP and TUNE are below
RUN; where the declaration puts STOP is left open. -/
structure overbridge_h where
  OB_SAMPLE_RATE : ℚ
  OB_FRAMES_PER_TRANSFER : Nat
  status_value : overbridge_status_t → Int
  startup_lt_run : status_value OB_STATUS_STARTUP < status_value OB_STATUS_RUN
  tune_lt_run : status_value OB_STATUS_TUNE < status_value OB_STATUS_RUN

/-- A byte addressed memory block (a `malloc`ed buffer or a port buffer). -/
abbrev Mem := Nat → Nat

/-- Bytes of one `jack_default_audio_sample_t` (a 32 bit float). -/
def sample_bytes : Nat := 4

/-- The call `memcpy (dst + doff, src + soff, n)` on byte addressed memories. -/
def memcpy (dst : Mem) (doff : Nat) (src : Mem) (soff : Nat) (n : Nat) : Mem :=
  fun k => if doff ≤ k ∧ k < doff + n then src (soff + (k - doff)) else dst k

/-- Modelled from the spec: the JACK ring buffer (jack/ringbuffer.h, not under
src/) is a single-producer single-consumer byte queue: `buf` holds the readable
bytes, oldest first, and `size` is the number of bytes the queue can hold. -/
structure jack_ringbuffer_t where
  buf : List Nat
  size : Nat
  deriving DecidableEq, Repr

/-- Modelled from the spec: `jack_ringbuffer_read_space`, the number of bytes
available for reading. -/
def jack_ringbuffer_read_space (rb : jack_ringbuffer_t) : Nat := rb.buf.length

/-- Modelled from the spec: `jack_ringbuffer_write_space`, the number of bytes
available for writing. -/
def jack_ringbuffer_write_space (rb : jack_ringbuffer_t) : Nat := rb.size - rb.buf.length

/-- Modelled from the spec: `jack_ringbuffer_write (rb, src, cnt)` appends the
first `cnt` bytes of `src`, or as many of them as fit. -/
def jack_ringbuffer_write (rb : jack_ringbuffer_t) (src : Mem) (cnt : Nat) : jack_ringbuffer_t :=
  { rb with buf := rb.buf ++ (List.range (min cnt (jack_ringbuffer_write_space rb))).map src }

/-- Modelled from the spec: `jack_ringbuffer_read (rb, dest, cnt)` moves the
oldest `cnt` bytes, or as many as are readable, to the start of `dest`. -/
def jack_ringbuffer_read (rb : jack_ringbuffer_t) (dest : Mem) (cnt : Nat) :
    jack_ringbuffer_t × Mem :=
  let n := min cnt (jack_ringbuffer_read_space rb)
  ({ rb with buf := rb.buf.drop n }, fun k => if k < n then rb.buf.getD k 0 else dest k)

/-- Modelled from the spec: `jack_ringbuffer_read_advance (rb, cnt)` discards
the oldest `cnt` bytes without copying them. -/
def jack_ringbuffer_read_advance (rb : jack_ringbuffer_t) (cnt : Nat) : jack_ringbuffer_t :=
  { rb with buf := rb.buf.drop cnt }

/-- Modelled from the spec: the fields of `struct overbridge` (overbridge.h, not
under src/) that `overwitch.c` reads or writes: the status word, the two
timestamped frame-count observations `i0` and `i1`, the j2o latency mark, the
frame sizes in bytes, the track counts of the device descriptor and the two
ring buffers. -/
structure overbridge where
  status : overbridge_status_t
  i0_frames : Nat
  i0_time : ℚ
  i1_frames : Nat
  i1_time : ℚ
  j2o_latency : Nat
  o2j_frame_bytes : Nat
  j2o_frame_bytes : Nat
  outputs : Nat
  inputs : Nat
  o2j_rb : jack_ringbuffer_t
  j2o_rb : jack_ringbuffer_t

/-- Modelled from the spec: `overbridge_set_status` is defined in overbridge.c,
which is not under src/; it stores the status word of the transport (under the
transport lock). -/
def overbridge_set_status (ob : overbridge) (status : overbridge_status_t) : overbridge :=
  { ob with status := status }

/-! ## The state of `overwitch.c` -/

/-- The file-scope variables of `overwitch.c` (lines 42-79) and its
function-local statics: `last_frames`, `running` (overwitch_o2j_reader),
`j2o_acc` (overwitch_j2o), `i`, `sum_o2j_ratio`, `sum_j2o_ratio`,
`last_o2j_ratio` (overwitch_compute_ratios).  `output_ports` holds the buffers of
the host output ports. -/
structure State where
  ob : overbridge
  output_ports : Nat → Mem
  bufsize : Nat
  samplerate : ℚ
  o2j_buf_size : Nat
  j2o_buf_size : Nat
  j2o_buf_in : Mem
  j2o_buf_out : Mem
  j2o_aux : Mem
  j2o_queue : Mem
  j2o_queue_len : Nat
  o2j_buf_in : Mem
  o2j_buf_out : Mem
  j2o_latency : Nat
  o2j_latency : Nat
  j2o_ratio : ℚ
  o2j_ratio : ℚ
  kj : Nat
  _w0 : ℚ
  _w1 : ℚ
  _w2 : ℚ
  kdel : Int
  _z1 : ℚ
  _z2 : ℚ
  _z3 : ℚ
  o2j_ratio_max : ℚ
  o2j_ratio_min : ℚ
  read_frames : Int
  log_control_cycles : Int
  last_frames : Int
  running : Bool
  j2o_acc : ℚ
  i : Int
  sum_o2j_ratio : ℚ
  sum_j2o_ratio : ℚ
  last_o2j_ratio : ℚ

/-- The constant `MAX_READ_FRAMES` (line 40). -/
def MAX_READ_FRAMES : Nat := 5

/-! ## Loop filter and configuration callbacks -/

/-- The function `overwitch_set_loop_filter` (lines 81-90). -/
def overwitch_set_loop_filter (m : math_h) (bw : ℚ) (s : State) : State :=
  let w : ℚ := 2 * m.M_PI * 20 * bw * s.bufsize / s.samplerate
  let w0 : ℚ := 1 - m.exp (-w)
  let w : ℚ := 2 * m.M_PI * bw * s.o2j_ratio / s.samplerate
  let w1 : ℚ := w * (16 / 10)
  let w2 : ℚ := w * s.bufsize / (16 / 10)
  { s with _w0 := w0, _w1 := w1, _w2 := w2 }

/-- The function `overwitch_sample_rate_cb` (lines 92-109). -/
def overwitch_sample_rate_cb (c : overbridge_h) (nframes : Nat) (s : State) : Int × State :=
  if s.samplerate ≠ 0 then
    (1, s)
  else
    let samplerate : ℚ := nframes
    let o2j_ratio : ℚ := samplerate / c.OB_SAMPLE_RATE
    let j2o_ratio : ℚ := 1 / o2j_ratio
    let o2j_ratio_max : ℚ := (105 / 100) * o2j_ratio
    let o2j_ratio_min : ℚ := (95 / 100) * o2j_ratio
    (0, { s with samplerate := samplerate, o2j_ratio := o2j_ratio, j2o_ratio := j2o_ratio,
                 o2j_ratio_max := o2j_ratio_max, o2j_ratio_min := o2j_ratio_min })

/-- The function `overwitch_buffer_size_cb` (lines 111-144). -/
def overwitch_buffer_size_cb (c : overbridge_h) (nframes : Nat) (s : State) : Int × State :=
  if s.bufsize ≠ 0 then
    (1, s)
  else if nframes > c.OB_FRAMES_PER_TRANSFER then
    (1, { s with ob := overbridge_set_status s.ob OB_STATUS_STOP })
  else
    let bufsize : Nat := nframes
    let kj : Nat := double_to_uint32 ((bufsize : ℚ) / (-s.o2j_ratio))
    let read_frames : Int := double_to_int ((bufsize : ℚ) * s.j2o_ratio)
    let kdel : Int := double_to_int ((c.OB_FRAMES_PER_TRANSFER : ℚ) + (15 / 10) * bufsize)
    let log_control_cycles : Int := double_to_int (2 * s.samplerate / bufsize)
    let o2j_buf_size : Nat := bufsize * s.ob.o2j_frame_bytes
    let j2o_buf_size : Nat := bufsize * s.ob.j2o_frame_bytes
    (0, { s with bufsize := bufsize, kj := kj, read_frames := read_frames, kdel := kdel,
                 log_control_cycles := log_control_cycles, o2j_buf_size := o2j_buf_size,
                 j2o_buf_size := j2o_buf_size })

/-! ## The converters and their feeders -/

/-- The function `overwitch_j2o_reader` (lines 153-171), the feeder of the j2o
converter: the returned frames are at the start of `j2o_buf_in`. -/
def overwitch_j2o_reader (s : State) : Int × State :=
  if s.j2o_queue_len = 0 then
    (s.bufsize, s)
  else
    let ret : Int := s.j2o_queue_len
    let data := memcpy s.j2o_buf_in 0 s.j2o_queue 0 (s.j2o_queue_len * s.ob.j2o_frame_bytes)
    (ret, { s with j2o_buf_in := data, j2o_queue_len := 0 })

/-- The function `overwitch_o2j_reader` (lines 173-229), the feeder of the o2j
converter: the returned frames are at the start of `o2j_buf_in`. -/
def overwitch_o2j_reader (s : State) : Int × State :=
  let rso2j := jack_ringbuffer_read_space s.ob.o2j_rb
  let r : Int × State :=
    if s.running then
      let o2j_latency := if s.o2j_latency < rso2j then rso2j else s.o2j_latency
      if rso2j ≥ s.ob.o2j_frame_bytes then
        let frames := rso2j / s.ob.o2j_frame_bytes
        let frames := if frames > MAX_READ_FRAMES then MAX_READ_FRAMES else frames
        let bytes := frames * s.ob.o2j_frame_bytes
        let rd := jack_ringbuffer_read s.ob.o2j_rb s.o2j_buf_in bytes
        ((frames : Int),
          { s with o2j_latency := o2j_latency, ob := { s.ob with o2j_rb := rd.1 },
                   o2j_buf_in := rd.2 })
      else
        let last := sample_bytes * ((s.last_frames - 1).toNat * s.ob.outputs)
        let o2j_buf_in :=
          if s.last_frames > 1 then memcpy s.o2j_buf_in 0 s.o2j_buf_in last s.ob.o2j_frame_bytes
          else s.o2j_buf_in
        ((MAX_READ_FRAMES : Int), { s with o2j_latency := o2j_latency, o2j_buf_in := o2j_buf_in })
    else
      if rso2j ≥ s.o2j_buf_size then
        let rb := jack_ringbuffer_read_advance s.ob.o2j_rb rso2j
        ((s.bufsize : Int), { s with ob := { s.ob with o2j_rb := rb }, running := true })
      else
        ((MAX_READ_FRAMES : Int), s)
  let frames := r.1
  (frames, { r.2 with read_frames := to_int32 (r.2.read_frames + frames),
                      last_frames := to_int32 frames })

/-- Modelled from the spec: what one call of `src_callback_read` (libsamplerate,
not under src/) is seen to do: the converter pulls its input by invoking the
feeder `calls` times, leaves `out` in the output buffer and returns
`gen_frames`, the number of frames generated. -/
structure src_call where
  calls : Nat
  gen_frames : Nat
  out : Mem

/-- Modelled from the spec: `src_callback_read (state, ratio, frames, out)` with
the feeder `reader` registered for `state`; it returns the number of generated
frames, the new output buffer and the state left by the feeder calls. -/
def src_callback_read (src : src_call) (reader : State → Int × State) (_ratio : ℚ)
    (_frames : Int) (s : State) : Nat × Mem × State :=
  (src.gen_frames, src.out, (fun t => (reader t).2)^[src.calls] s)

/-- The function `overwitch_o2j` (lines 231-244). -/
def overwitch_o2j (src : src_call) (s : State) : State :=
  let s := { s with read_frames := 0 }
  let r := src_callback_read src overwitch_o2j_reader s.o2j_ratio s.bufsize s
  { r.2.2 with o2j_buf_out := r.2.1 }

/-- The fractional accumulator of `overwitch_j2o` (lines 264-267): from
`bufsize`, `j2o_ratio` and the accumulator `j2o_acc` it gives the new accumulator
and `frames`, the number of frames to request from the converter. -/
def j2o_accumulate (bufsize : Nat) (j2o_ratio j2o_acc : ℚ) : ℚ × Int :=
  let acc : ℚ := j2o_acc + bufsize * (j2o_ratio - 1)
  let inc : Int := double_to_int (c_trunc acc)
  let acc : ℚ := acc - inc
  let frames : Int := to_int32 (bufsize + inc)
  (acc, frames)

/-- The function `overwitch_j2o` (lines 246-292). -/
def overwitch_j2o (c : overbridge_h) (src : src_call) (s : State) : State :=
  let status := s.ob.status
  let queue := memcpy s.j2o_queue (sample_bytes * s.j2o_queue_len) s.j2o_aux 0 s.j2o_buf_size
  let queue_len := s.j2o_queue_len + s.bufsize
  let a := j2o_accumulate s.bufsize s.j2o_ratio s.j2o_acc
  let acc : ℚ := a.1
  let frames : Int := a.2
  let s := { s with j2o_queue := queue, j2o_queue_len := queue_len, j2o_acc := acc }
  let r := src_callback_read src overwitch_j2o_reader s.j2o_ratio frames s
  let gen_frames := r.1
  let s := { r.2.2 with j2o_buf_out := r.2.1 }
  if c.status_value status < c.status_value OB_STATUS_RUN then
    s
  else
    let bytes := gen_frames * s.ob.j2o_frame_bytes
    let wsj2o := jack_ringbuffer_write_space s.ob.j2o_rb
    if bytes ≤ wsj2o then
      let rb := jack_ringbuffer_write s.ob.j2o_rb s.j2o_buf_out bytes
      { s with ob := { s.ob with j2o_rb := rb } }
    else
      s

/-! ## The controller -/

/-- The time error of `overwitch_compute_ratios` (lines 332-335): `n` is a
`jack_nframes_t`, so both frame-count differences are taken modulo `2^32`.  The
quotient of line 333 is a number when `to1 ≠ to0`; for `to1 = to0` C gives an
infinity or a NaN and this definition does not describe the code. -/
def time_error (ko0 ko1 : Nat) (to0 to1 tj : ℚ) (kj : Nat) (kdel : Int) : ℚ :=
  let n := to_uint32 ((ko1 : Int) - ko0)
  let dob : ℚ := n * (tj - to0) / (to1 - to0)
  let n := to_uint32 ((ko0 : Int) - kj)
  n + dob - kdel

/-- The function `overwitch_compute_ratios` (lines 294-401); `current_usecs` is
the value stored by `jack_get_cycle_times`. -/
def overwitch_compute_ratios (c : overbridge_h) (m : math_h) (current_usecs : Nat) (s : State) :
    State :=
  let ko0 := to_uint32 (s.ob.i0_frames : Int)
  let to0 := s.ob.i0_time
  let ko1 := to_uint32 (s.ob.i1_frames : Int)
  let to1 := s.ob.i1_time
  let status := s.ob.status
  let kj := to_uint32 ((s.kj : Int) + s.read_frames)
  let tj : ℚ := current_usecs * (1 / 1000000)
  let err := time_error ko0 ko1 to0 to1 tj kj s.kdel
  let z1 : ℚ := s._z1 + s._w0 * (s._w1 * err - s._z1)
  let z2 : ℚ := s._z2 + s._w0 * (z1 - s._z2)
  let z3 : ℚ := s._z3 + s._w2 * z2
  let o2j_ratio : ℚ := 1 - z2 - z3
  let o2j_ratio : ℚ := if o2j_ratio > s.o2j_ratio_max then s.o2j_ratio_max else o2j_ratio
  let o2j_ratio : ℚ := if o2j_ratio < s.o2j_ratio_min then s.o2j_ratio_min else o2j_ratio
  let j2o_ratio : ℚ := 1 / o2j_ratio
  let i := to_int32 (s.i + 1)
  let sum_o2j_ratio := s.sum_o2j_ratio + o2j_ratio
  let sum_j2o_ratio := s.sum_j2o_ratio + j2o_ratio
  let log : Bool := decide (i = s.log_control_cycles)
  let s := { s with j2o_latency := s.ob.j2o_latency, kj := kj, _z1 := z1, _z2 := z2, _z3 := z3,
                    o2j_ratio := o2j_ratio, j2o_ratio := j2o_ratio,
                    i := if log then 0 else i,
                    sum_o2j_ratio := if log then 0 else sum_o2j_ratio,
                    sum_j2o_ratio := if log then 0 else sum_j2o_ratio }
  if log ∧ status = OB_STATUS_STARTUP then
    let s := overwitch_set_loop_filter m (5 / 100) s
    let n : Int := double_to_int ((⌊err + 1 / 2⌋ : Int) : ℚ)
    { s with kj := to_uint32 ((s.kj : Int) + n),
             ob := { s.ob with status := OB_STATUS_TUNE },
             last_o2j_ratio := s.o2j_ratio }
  else
    let run : Bool := decide (status = OB_STATUS_TUNE ∧
      ((c_abs (double_to_int (s.last_o2j_ratio - s.o2j_ratio)) : ℚ) < 1 / 10000000))
    { s with ob := if run then { s.ob with status := OB_STATUS_RUN } else s.ob,
             last_o2j_ratio :=
               if c.status_value status < c.status_value OB_STATUS_RUN then s.o2j_ratio
               else s.last_o2j_ratio }

/-! ## The process cycle -/

/-- What the host hands to one process cycle: the cycle time stored by
`jack_get_cycle_times`, the buffers of the host input ports and the behaviour
of the two converters in this cycle. -/
structure process_in where
  current_usecs : Nat
  input_ports : Nat → Mem
  o2j_src : src_call
  j2o_src : src_call

/-- The store `buffer[j][i] = *f` of one sample into port `j` (line 424). -/
def store_port (ports : Nat → Mem) (j i : Nat) (src : Mem) (f : Nat) : Nat → Mem :=
  fun p => if p = j then memcpy (ports p) (sample_bytes * i) src (sample_bytes * f) sample_bytes
    else ports p

/-- The loops of lines 415-427: the samples of `src` (read through the moving
pointer `f`) go to the output ports, frame by frame. -/
def deinterleave (outputs nframes : Nat) (src : Mem) (ports : Nat → Mem) : Nat → Mem :=
  ((List.range nframes).foldl
    (fun (a : (Nat → Mem) × Nat) i =>
      (List.range outputs).foldl
        (fun (b : (Nat → Mem) × Nat) j => (store_port b.1 j i src b.2, b.2 + 1)) a)
    (ports, 0)).1

/-- The loops of lines 431-443: the samples of the input ports go to `aux`
(written through the moving pointer `f`), frame by frame. -/
def interleave (inputs nframes : Nat) (ports : Nat → Mem) (aux : Mem) : Mem :=
  ((List.range nframes).foldl
    (fun (a : Mem × Nat) i =>
      (List.range inputs).foldl
        (fun (b : Mem × Nat) j =>
          (memcpy b.1 (sample_bytes * b.2) (ports j) (sample_bytes * i) sample_bytes, b.2 + 1)) a)
    (aux, 0)).1

/-- The function `overwitch_process_cb` (lines 403-448). -/
def overwitch_process_cb (c : overbridge_h) (m : math_h) (inp : process_in) (nframes : Nat)
    (s : State) : Int × State :=
  let s := overwitch_compute_ratios c m inp.current_usecs s
  let s := overwitch_o2j inp.o2j_src s
  let ports := deinterleave s.ob.outputs nframes s.o2j_buf_out s.output_ports
  let aux := interleave s.ob.inputs nframes inp.input_ports s.j2o_aux
  let s := overwitch_j2o c inp.j2o_src { s with output_ports := ports, j2o_aux := aux }
  (0, s)

/-! ## Sequences of controller cycles -/

/-- One cycle as the controller sees it: `before` is what the rest of the
program and the transport do to the state since the previous call of
`overwitch_compute_ratios` (feeders, converters, new observations), and
`current_usecs` is the cycle time of this call. -/
structure cycle where
  before : State → State
  current_usecs : Nat

/-- The state after consecutive calls of `overwitch_compute_ratios`, one per
cycle of the list. -/
def run_cycles (hdr : overbridge_h) (m : math_h) : List cycle → State → State
  | [], s => s
  | c :: cs, s => run_cycles hdr m cs (overwitch_compute_ratios hdr m c.current_usecs (c.before s))

/-- No other writer: `f` leaves the status word, the cycle counter `i` and
`log_control_cycles` as they are. -/
def quiet (f : State → State) : Prop :=
  ∀ s, (f s).ob.status = s.ob.status ∧ (f s).i = s.i ∧
    (f s).log_control_cycles = s.log_control_cycles

/-! ## Concrete values for the examples -/

/-- The state in which `overwitch_run` starts the callbacks: the file-scope
variables are zero initialised (the buffers zeroed, lines 587-588), the statics
have their initialisers (`last_frames = 1`, line 179; the others `0`). -/
def State.init (ob : overbridge) : State where
  ob := ob
  output_ports := fun _ _ => 0
  bufsize := 0
  samplerate := 0
  o2j_buf_size := 0
  j2o_buf_size := 0
  j2o_buf_in := fun _ => 0
  j2o_buf_out := fun _ => 0
  j2o_aux := fun _ => 0
  j2o_queue := fun _ => 0
  j2o_queue_len := 0
  o2j_buf_in := fun _ => 0
  o2j_buf_out := fun _ => 0
  j2o_latency := 0
  o2j_latency := 0
  j2o_ratio := 0
  o2j_ratio := 0
  kj := 0
  _w0 := 0
  _w1 := 0
  _w2 := 0
  kdel := 0
  _z1 := 0
  _z2 := 0
  _z3 := 0
  o2j_ratio_max := 0
  o2j_ratio_min := 0
  read_frames := 0
  log_control_cycles := 0
  last_frames := 1
  running := false
  j2o_acc := 0
  i := 0
  sum_o2j_ratio := 0
  sum_j2o_ratio := 0
  last_o2j_ratio := 0

/-- The enumerator values of a declaration that lists STOP first: STOP = 0,
STARTUP = 1, TUNE = 2, RUN = 3. -/
def example_status_value : overbridge_status_t → Int
  | OB_STATUS_STOP => 0
  | OB_STATUS_STARTUP => 1
  | OB_STATUS_TUNE => 2
  | OB_STATUS_RUN => 3

/-- Example constants, the values of the first end-to-end scenario of the spec:
device sample rate 48000, 256 frames per transfer; `example_status_value` for the
status enumeration. -/
def example_h : overbridge_h :=
  ⟨48000, 256, example_status_value, by decide, by decide⟩

/-- Rational stand-ins for `exp` and `M_PI`, used only to evaluate the embedding
at concrete inputs. -/
def example_math : math_h := ⟨fun x => 1 + x, 355 / 113⟩

/-- An example transport: a device with 2 inputs and 2 outputs (8 byte frames),
empty ring buffers of 4096 bytes, observations (0, 0 s) and (256, 1/187 s). -/
def example_ob (status : overbridge_status_t) : overbridge where
  status := status
  i0_frames := 0
  i0_time := 0
  i1_frames := 256
  i1_time := 1 / 187
  j2o_latency := 0
  o2j_frame_bytes := 8
  j2o_frame_bytes := 8
  outputs := 2
  inputs := 2
  o2j_rb := ⟨[], 4096⟩
  j2o_rb := ⟨[], 4096⟩

/-- A controller state in TUNE: the band of `overwitch_sample_rate_cb` for a
48000 Hz host (ratio band [0.95, 1.05]), filter taps and coefficients zero, and
the ratio of the previous cycle `last_o2j_ratio = 1.01`. -/
def tune_state : State :=
  { (overwitch_sample_rate_cb example_h 48000 (State.init (example_ob OB_STATUS_TUNE))).2 with
    last_o2j_ratio := 101 / 100 }

/-- A cycle in which nothing touches the state between two controller calls. -/
def idle_cycle : cycle := ⟨fun s => s, 1000000⟩

/-- The state after the host has announced the sample rate 48000. -/
def rate_set_state (status : overbridge_status_t) : State :=
  (overwitch_sample_rate_cb example_h 48000 (State.init (example_ob status))).2

/-- The state after the host has announced the sample rate 48000 and the
buffer size 128. -/
def configured_state (status : overbridge_status_t) : State :=
  (overwitch_buffer_size_cb example_h 128 (rate_set_state status)).2

/-- A converter call that pulls its feeder once and generates 128 frames. -/
def example_src : src_call := ⟨1, 128, fun k => 1 + k % 255⟩

/-- A process cycle at 1 s with silent input ports. -/
def example_process_in : process_in := ⟨1000000, fun _ _ => 0, example_src, example_src⟩

/-- A controller state whose host count is ahead of the device count:
observations (1000, 0 s) and (1256, 1/187 s), `kj = 1100`, `read_frames = 128`,
`kdel = 448`; with `_z1 = 0` and `_w0 = _w1 = 1` the next `_z1` is the time
error itself. -/
def ahead_state : State :=
  { State.init { example_ob OB_STATUS_RUN with i0_frames := 1000, i1_frames := 1256 } with
    kj := 1100, read_frames := 128, kdel := 448, _w0 := 1, _w1 := 1 }

/-- The time error `err` of one call of `overwitch_compute_ratios` in the state
`s` (lines 329-335): `kj` is advanced by `read_frames`, then the error is taken
on the observations of `ob`. -/
def cycle_err (current_usecs : Nat) (s : State) : ℚ :=
  time_error (to_uint32 (s.ob.i0_frames : Int)) (to_uint32 (s.ob.i1_frames : Int))
    s.ob.i0_time s.ob.i1_time ((current_usecs : ℚ) * (1 / 1000000))
    (to_uint32 ((s.kj : Int) + s.read_frames)) s.kdel

/-- A controller state at the end of the startup interval (`i + 1` reaches
`log_control_cycles = 1`): observations (1000, 0 s) and (1168, 3.5 ms), `kj = 900`,
`read_frames = 0`, target delay `kdel = 264` (168 frames per transfer, 64 frames
per cycle), host rate 48000. -/
def absorb_state : State :=
  { State.init { example_ob OB_STATUS_STARTUP with
      i0_frames := 1000, i1_frames := 1168, i1_time := 7 / 2000 } with
    kj := 900, kdel := 264, log_control_cycles := 1, bufsize := 64, samplerate := 48000,
    o2j_ratio_min := 19 / 20, o2j_ratio_max := 21 / 20 }

/-- An o2j feeder state for the examples: 2 outputs, frames of 8 bytes, 2 frames
per cycle (`o2j_buf_size = 16`), the given mode, previous batch size and ring
contents, and `o2j_buf_in` holding the byte `100 + k` at offset `k`. -/
def feeder_state (running : Bool) (last_frames : Int) (ring : List Nat) : State :=
  { State.init { example_ob OB_STATUS_RUN with o2j_rb := ⟨ring, 4096⟩ } with
    bufsize := 2, o2j_buf_size := 16, running := running, last_frames := last_frames,
    o2j_buf_in := fun k => 100 + k }

/-- A j2o feeder state for the examples: frames of 8 bytes, 2 frames per cycle,
`n` frames queued, the queue holding the byte `1 + k` at offset `k`, and
`j2o_buf_in` still zero. -/
def queue_state (n : Nat) : State :=
  { State.init (example_ob OB_STATUS_RUN) with
    bufsize := 2, j2o_buf_size := 16, j2o_queue_len := n, j2o_queue := fun k => 1 + k }

/-- The total number of frames returned by `n` consecutive calls of a feeder,
starting in the state `s`. -/
def frames_returned (reader : State → Int × State) : Nat → State → Int
  | 0, _ => 0
  | n + 1, s => (reader s).1 + frames_returned reader n (reader s).2

/-- One call of `overwitch_j2o` in a sequence: the j2o ratio in force in this
cycle (set by the controller) and the behaviour of the converter. -/
structure j2o_cycle where
  ratio : ℚ
  src : src_call

/-- The state after consecutive calls of `overwitch_j2o`, one per element of the
list, each with its own `j2o_ratio`. -/
def run_j2o (hdr : overbridge_h) : List j2o_cycle → State → State
  | [], s => s
  | c :: cs, s => run_j2o hdr cs (overwitch_j2o hdr c.src { s with j2o_ratio := c.ratio })

/-- The total number of frames these calls request from the converter (the sum
of the values of `frames`, line 267). -/
def j2o_requested (hdr : overbridge_h) : List j2o_cycle → State → Int
  | [], _ => 0
  | c :: cs, s =>
    (j2o_accumulate s.bufsize c.ratio s.j2o_acc).2
      + j2o_requested hdr cs (overwitch_j2o hdr c.src { s with j2o_ratio := c.ratio })

/-- Two j2o cycles for the examples, with the ratios 1.001 and 0.999. -/
def example_j2o_cycles : List j2o_cycle := [⟨1001 / 1000, example_src⟩, ⟨999 / 1000, example_src⟩]

/-- A feeder state about to flush: priming mode, 8 frames of 8 bytes per cycle
(`o2j_buf_size = 64`) and 70 readable bytes. -/
def flush_state : State :=
  { feeder_state false 1 (List.range 70) with bufsize := 8, o2j_buf_size := 64 }

/-- A configured controller state in STARTUP with the cycle counter at 0 and the
log interval `log_control_cycles = 2`: host rate 48000, 64 frames per cycle,
ratio band [0.95, 1.05], observations (1000, 0 s) and (1168, 3.5 ms), coefficients
and filter taps zero. -/
def retune_state : State := { absorb_state with log_control_cycles := 2 }

/-! ## Auxiliary facts -/

theorem compute_ratios_status (hdr : overbridge_h) (m : math_h) (current_usecs : Nat) (s : State) :
    (overwitch_compute_ratios hdr m current_usecs s).ob.status =
      if to_int32 (s.i + 1) = s.log_control_cycles ∧ s.ob.status = OB_STATUS_STARTUP then
        OB_STATUS_TUNE
      else if s.ob.status = OB_STATUS_TUNE ∧
          ((c_abs (double_to_int (s.last_o2j_ratio -
            (overwitch_compute_ratios hdr m current_usecs s).o2j_ratio)) : ℚ) < 1 / 10000000) then
        OB_STATUS_RUN
      else s.ob.status := by
  unfold overwitch_compute_ratios
  by_cases h : (to_int32 (s.i + 1) = s.log_control_cycles) ∧ s.ob.status = OB_STATUS_STARTUP
  · simp [h, overwitch_set_loop_filter]
  · simp only [h, decide_eq_true_eq, if_false, Bool.decide_and, Bool.and_eq_true]
    simp only [apply_ite overbridge.status]

theorem to_int32_of_range (x : Int) (h0 : -2147483648 ≤ x) (h1 : x ≤ 2147483647) :
    to_int32 x = x := by
  unfold to_int32
  omega

theorem compute_ratios_log_control_cycles (hdr : overbridge_h) (m : math_h)
    (current_usecs : Nat) (s : State) :
    (overwitch_compute_ratios hdr m current_usecs s).log_control_cycles = s.log_control_cycles := by
  unfold overwitch_compute_ratios
  by_cases h : (to_int32 (s.i + 1) = s.log_control_cycles) ∧ s.ob.status = OB_STATUS_STARTUP
  · simp [h, overwitch_set_loop_filter]
  · simp [h]

theorem compute_ratios_i (hdr : overbridge_h) (m : math_h) (current_usecs : Nat) (s : State) :
    (overwitch_compute_ratios hdr m current_usecs s).i =
      if to_int32 (s.i + 1) = s.log_control_cycles then 0 else to_int32 (s.i + 1) := by
  unfold overwitch_compute_ratios
  by_cases h : (to_int32 (s.i + 1) = s.log_control_cycles) ∧ s.ob.status = OB_STATUS_STARTUP
  · simp [h, overwitch_set_loop_filter]
  · simp [h]

/-- The coefficients after a call that takes the retune branch (lines 369-386)
are those of `overwitch_set_loop_filter (0.05)` at the ratio just computed. -/
theorem compute_ratios_retune (hdr : overbridge_h) (m : math_h) (current_usecs : Nat) (s : State)
    (h : to_int32 (s.i + 1) = s.log_control_cycles ∧ s.ob.status = OB_STATUS_STARTUP) :
    (overwitch_compute_ratios hdr m current_usecs s)._w0 =
        (overwitch_set_loop_filter m (5 / 100)
          { s with
            o2j_ratio := (overwitch_compute_ratios hdr m current_usecs s).o2j_ratio })._w0 ∧
    (overwitch_compute_ratios hdr m current_usecs s)._w1 =
        (overwitch_set_loop_filter m (5 / 100)
          { s with
            o2j_ratio := (overwitch_compute_ratios hdr m current_usecs s).o2j_ratio })._w1 ∧
    (overwitch_compute_ratios hdr m current_usecs s)._w2 =
        (overwitch_set_loop_filter m (5 / 100)
          { s with
            o2j_ratio := (overwitch_compute_ratios hdr m current_usecs s).o2j_ratio })._w2 := by
  unfold overwitch_compute_ratios
  simp [h, overwitch_set_loop_filter]

/-- A call that does not take the retune branch leaves the coefficients alone. -/
theorem compute_ratios_no_retune (hdr : overbridge_h) (m : math_h) (current_usecs : Nat) (s : State)
    (h : ¬ (to_int32 (s.i + 1) = s.log_control_cycles ∧ s.ob.status = OB_STATUS_STARTUP)) :
    (overwitch_compute_ratios hdr m current_usecs s)._w0 = s._w0 ∧
    (overwitch_compute_ratios hdr m current_usecs s)._w1 = s._w1 ∧
    (overwitch_compute_ratios hdr m current_usecs s)._w2 = s._w2 := by
  unfold overwitch_compute_ratios
  simp [h]

theorem compute_ratios_startup_step (hdr : overbridge_h) (m : math_h)
    (current_usecs : Nat) (s : State) (L k : Nat)
    (hs : s.ob.status = OB_STATUS_STARTUP) (hi : s.i = k) (hl : s.log_control_cycles = L)
    (hk : k + 1 < L) (hmax : L ≤ 2147483647) :
    (overwitch_compute_ratios hdr m current_usecs s).ob.status = OB_STATUS_STARTUP ∧
    (overwitch_compute_ratios hdr m current_usecs s).i = ((k + 1 : Nat) : Int) ∧
    (overwitch_compute_ratios hdr m current_usecs s).log_control_cycles = L := by
  have hr : to_int32 (s.i + 1) = ((k + 1 : Nat) : Int) := by
    rw [hi, to_int32_of_range] <;> omega
  have hne : ¬ (to_int32 (s.i + 1) = s.log_control_cycles) := by
    rw [hr, hl]; omega
  refine ⟨?_, ?_, ?_⟩
  · rw [compute_ratios_status]
    simp [hne, hs]
  · rw [compute_ratios_i, if_neg hne, hr]
  · rw [compute_ratios_log_control_cycles, hl]

theorem compute_ratios_tune_step (hdr : overbridge_h) (m : math_h)
    (current_usecs : Nat) (s : State) (L k : Nat)
    (hs : s.ob.status = OB_STATUS_STARTUP) (hi : s.i = k) (hl : s.log_control_cycles = L)
    (hk : k + 1 = L) (hmax : L ≤ 2147483647) :
    to_int32 (s.i + 1) = s.log_control_cycles ∧
    (overwitch_compute_ratios hdr m current_usecs s).ob.status = OB_STATUS_TUNE := by
  have hr : to_int32 (s.i + 1) = s.log_control_cycles := by
    rw [hi, hl, to_int32_of_range] <;> omega
  refine ⟨hr, ?_⟩
  rw [compute_ratios_status]
  simp [hr, hs]

theorem compute_ratios_not_startup (hdr : overbridge_h) (m : math_h)
    (current_usecs : Nat) (s : State)
    (hs : s.ob.status ≠ OB_STATUS_STARTUP) :
    (overwitch_compute_ratios hdr m current_usecs s).ob.status ≠ OB_STATUS_STARTUP := by
  rw [compute_ratios_status]
  split_ifs <;> simp [hs]

theorem run_cycles_startup (hdr : overbridge_h) (m : math_h) (L : Nat) (hmax : L ≤ 2147483647) :
    ∀ (cs : List cycle) (s : State) (k : Nat), (∀ c ∈ cs, quiet c.before) →
      s.ob.status = OB_STATUS_STARTUP → s.i = k → s.log_control_cycles = L →
      k + cs.length < L →
      (run_cycles hdr m cs s).ob.status = OB_STATUS_STARTUP ∧
      (run_cycles hdr m cs s).i = ((k + cs.length : Nat) : Int) ∧
      (run_cycles hdr m cs s).log_control_cycles = L := by
  intro cs
  induction cs with
  | nil => intro s k _ hs hi hl _; exact ⟨hs, by simpa [run_cycles] using hi, hl⟩
  | cons c cs ih =>
    intro s k hq hs hi hl hk
    have hqc := hq c (List.mem_cons_self _ _) s
    simp only [List.length_cons] at hk
    have step := compute_ratios_startup_step hdr m c.current_usecs (c.before s) L k
      (hqc.1.trans hs) (hqc.2.1.trans hi) (hqc.2.2.trans hl) (by omega) hmax
    have := ih _ (k + 1) (fun c' hc' => hq c' (List.mem_cons_of_mem _ hc')) step.1 step.2.1
      step.2.2 (by omega)
    simp only [run_cycles, List.length_cons]
    rw [show k + (cs.length + 1) = k + 1 + cs.length by omega]
    exact this

theorem run_cycles_not_startup (hdr : overbridge_h) (m : math_h) :
    ∀ (cs : List cycle) (s : State), (∀ c ∈ cs, quiet c.before) →
      s.ob.status ≠ OB_STATUS_STARTUP →
      (run_cycles hdr m cs s).ob.status ≠ OB_STATUS_STARTUP := by
  intro cs
  induction cs with
  | nil => intro s _ hs; exact hs
  | cons c cs ih =>
    intro s hq hs
    have hqc := hq c (List.mem_cons_self _ _) s
    simp only [run_cycles]
    apply ih _ (fun c' hc' => hq c' (List.mem_cons_of_mem _ hc'))
    apply compute_ratios_not_startup
    rw [hqc.1]; exact hs

theorem run_cycles_leaves_startup (hdr : overbridge_h) (m : math_h)
    (L : Nat) (hmax : L ≤ 2147483647) :
    ∀ (cs : List cycle) (s : State) (k : Nat), (∀ c ∈ cs, quiet c.before) →
      s.ob.status = OB_STATUS_STARTUP → s.i = k → s.log_control_cycles = L →
      k < L → L ≤ k + cs.length →
      (run_cycles hdr m cs s).ob.status ≠ OB_STATUS_STARTUP := by
  intro cs
  induction cs with
  | nil => intro s k _ _ _ _ h1 h2; simp at h2; omega
  | cons c cs ih =>
    intro s k hq hs hi hl h1 h2
    have hqc := hq c (List.mem_cons_self _ _) s
    have hq' : ∀ c' ∈ cs, quiet c'.before := fun c' hc' => hq c' (List.mem_cons_of_mem _ hc')
    simp only [List.length_cons] at h2
    simp only [run_cycles]
    by_cases hk : k + 1 = L
    · have step := compute_ratios_tune_step hdr m c.current_usecs (c.before s) L k
        (hqc.1.trans hs) (hqc.2.1.trans hi) (hqc.2.2.trans hl) hk hmax
      apply run_cycles_not_startup hdr m cs _ hq'
      rw [step.2]; decide
    · have step := compute_ratios_startup_step hdr m c.current_usecs (c.before s) L k
        (hqc.1.trans hs) (hqc.2.1.trans hi) (hqc.2.2.trans hl) (by omega) hmax
      exact ih _ (k + 1) hq' step.1 step.2.1 step.2.2 (by omega) (by omega)

theorem quiet_idle_cycle : quiet idle_cycle.before := fun _ => ⟨rfl, rfl, rfl⟩

theorem quiet_replicate_idle (n : Nat) : ∀ c ∈ List.replicate n idle_cycle, quiet c.before := by
  intro c hc
  rw [List.eq_of_mem_replicate hc]
  exact quiet_idle_cycle

theorem compute_ratios_z1 (hdr : overbridge_h) (m : math_h) (current_usecs : Nat) (s : State) :
    (overwitch_compute_ratios hdr m current_usecs s)._z1 =
      s._z1 + s._w0 * (s._w1 *
        time_error (to_uint32 (s.ob.i0_frames : Int)) (to_uint32 (s.ob.i1_frames : Int))
          s.ob.i0_time s.ob.i1_time ((current_usecs : ℚ) * (1 / 1000000))
          (to_uint32 ((s.kj : Int) + s.read_frames)) s.kdel - s._z1) := by
  unfold overwitch_compute_ratios
  by_cases h : (to_int32 (s.i + 1) = s.log_control_cycles) ∧ s.ob.status = OB_STATUS_STARTUP
  · simp [h, overwitch_set_loop_filter]
  · simp [h]

theorem buffer_size_cb_accept (c : overbridge_h) (nframes : Nat) (s : State)
    (h0 : s.bufsize = 0) (h : nframes ≤ c.OB_FRAMES_PER_TRANSFER) :
    (overwitch_buffer_size_cb c nframes s).1 = 0 ∧
    (overwitch_buffer_size_cb c nframes s).2.bufsize = nframes := by
  simp [overwitch_buffer_size_cb, h0, Nat.not_lt.mpr h]

theorem sample_rate_cb_reject (c : overbridge_h) (nframes : Nat) (s : State)
    (h : s.samplerate ≠ 0) : overwitch_sample_rate_cb c nframes s = (1, s) := by
  simp [overwitch_sample_rate_cb, h]

theorem buffer_size_cb_reject (c : overbridge_h) (nframes : Nat) (s : State)
    (h : s.bufsize ≠ 0) : overwitch_buffer_size_cb c nframes s = (1, s) := by
  simp [overwitch_buffer_size_cb, h]

theorem j2o_reader_ob (s : State) : (overwitch_j2o_reader s).2.ob = s.ob := by
  unfold overwitch_j2o_reader
  split_ifs <;> rfl

theorem j2o_reader_iterate_ob (n : Nat) :
    ∀ s : State, ((fun t => (overwitch_j2o_reader t).2)^[n] s).ob = s.ob := by
  induction n with
  | zero => intro s; rfl
  | succ n ih =>
    intro s
    rw [Function.iterate_succ_apply, ih, j2o_reader_ob]

/-- The j2o ring after `overwitch_j2o`, by cases on the status snapshot and on
whether the converter output fits. -/
theorem j2o_ring (hdr : overbridge_h) (src : src_call) (s : State) :
    (overwitch_j2o hdr src s).ob.j2o_rb =
      if hdr.status_value s.ob.status < hdr.status_value OB_STATUS_RUN then s.ob.j2o_rb
      else if src.gen_frames * s.ob.j2o_frame_bytes ≤ jack_ringbuffer_write_space s.ob.j2o_rb then
        jack_ringbuffer_write s.ob.j2o_rb src.out (src.gen_frames * s.ob.j2o_frame_bytes)
      else s.ob.j2o_rb := by
  unfold overwitch_j2o
  simp only [src_callback_read, j2o_reader_iterate_ob]
  split_ifs <;> simp [j2o_reader_iterate_ob]

theorem ringbuffer_write_fits (rb : jack_ringbuffer_t) (src : Mem) (cnt : Nat)
    (h : cnt ≤ jack_ringbuffer_write_space rb) :
    jack_ringbuffer_write rb src cnt = ⟨rb.buf ++ (List.range cnt).map src, rb.size⟩ := by
  simp [jack_ringbuffer_write, Nat.min_eq_left h]

theorem compute_ratios_ob (hdr : overbridge_h) (m : math_h) (current_usecs : Nat) (s : State) :
    (overwitch_compute_ratios hdr m current_usecs s).ob.j2o_rb = s.ob.j2o_rb ∧
    (overwitch_compute_ratios hdr m current_usecs s).ob.j2o_frame_bytes = s.ob.j2o_frame_bytes := by
  unfold overwitch_compute_ratios
  by_cases h : (to_int32 (s.i + 1) = s.log_control_cycles) ∧ s.ob.status = OB_STATUS_STARTUP
  · simp [h, overwitch_set_loop_filter]
  · simp only [h, decide_eq_true_eq, if_false, Bool.decide_and, Bool.and_eq_true]
    simp only [apply_ite overbridge.j2o_rb, apply_ite overbridge.j2o_frame_bytes]
    simp

theorem o2j_reader_ob (s : State) :
    (overwitch_o2j_reader s).2.ob.status = s.ob.status ∧
    (overwitch_o2j_reader s).2.ob.j2o_rb = s.ob.j2o_rb ∧
    (overwitch_o2j_reader s).2.ob.j2o_frame_bytes = s.ob.j2o_frame_bytes := by
  unfold overwitch_o2j_reader
  simp only
  split_ifs <;> simp

theorem o2j_reader_iterate_ob (n : Nat) :
    ∀ s : State,
      ((fun t => (overwitch_o2j_reader t).2)^[n] s).ob.status = s.ob.status ∧
      ((fun t => (overwitch_o2j_reader t).2)^[n] s).ob.j2o_rb = s.ob.j2o_rb ∧
      ((fun t => (overwitch_o2j_reader t).2)^[n] s).ob.j2o_frame_bytes
        = s.ob.j2o_frame_bytes := by
  induction n with
  | zero => intro s; exact ⟨rfl, rfl, rfl⟩
  | succ n ih =>
    intro s
    rw [Function.iterate_succ_apply]
    have h1 := ih (overwitch_o2j_reader s).2
    have h2 := o2j_reader_ob s
    exact ⟨h1.1.trans h2.1, h1.2.1.trans h2.2.1, h1.2.2.trans h2.2.2⟩

theorem o2j_ob (src : src_call) (s : State) :
    (overwitch_o2j src s).ob.status = s.ob.status ∧
    (overwitch_o2j src s).ob.j2o_rb = s.ob.j2o_rb ∧
    (overwitch_o2j src s).ob.j2o_frame_bytes = s.ob.j2o_frame_bytes := by
  unfold overwitch_o2j
  simp only [src_callback_read]
  exact o2j_reader_iterate_ob src.calls _

/-- The j2o ring after one process cycle, in terms of the status left by the
controller at the start of the cycle. -/
theorem process_cb_j2o_ring (hdr : overbridge_h) (m : math_h)
    (inp : process_in) (nframes : Nat) (s : State) :
    (overwitch_process_cb hdr m inp nframes s).2.ob.j2o_rb =
      if hdr.status_value (overwitch_compute_ratios hdr m inp.current_usecs s).ob.status
          < hdr.status_value OB_STATUS_RUN then s.ob.j2o_rb
      else if inp.j2o_src.gen_frames * s.ob.j2o_frame_bytes
          ≤ jack_ringbuffer_write_space s.ob.j2o_rb then
        jack_ringbuffer_write s.ob.j2o_rb inp.j2o_src.out
          (inp.j2o_src.gen_frames * s.ob.j2o_frame_bytes)
      else s.ob.j2o_rb := by
  unfold overwitch_process_cb
  simp only [j2o_ring]
  have h1 := compute_ratios_ob hdr m inp.current_usecs s
  have h2 := o2j_ob inp.o2j_src (overwitch_compute_ratios hdr m inp.current_usecs s)
  simp only [h2.1, h2.2.1, h2.2.2, h1.1, h1.2]

theorem compute_ratios_stop (hdr : overbridge_h) (m : math_h) (current_usecs : Nat) (s : State)
    (h : s.ob.status = OB_STATUS_STOP) :
    (overwitch_compute_ratios hdr m current_usecs s).ob.status = OB_STATUS_STOP := by
  rw [compute_ratios_status]
  simp [h]

theorem c_trunc_of_abs_lt_one (d : ℚ) (h : |d| < 1) : c_trunc d = 0 := by
  have h' := abs_lt.mp h
  unfold c_trunc
  split_ifs with h0
  · rw [Int.floor_eq_iff]
    constructor
    · simpa using h0
    · simpa using h'.2
  · rw [Int.ceil_eq_iff]
    constructor
    · simpa using h'.1
    · simpa using le_of_lt (not_le.mp h0)

/-- What the test of line 390 amounts to: in a TUNE cycle the status becomes RUN
as soon as the two ratios differ by less than 1. -/
theorem tune_to_run_below_one (hdr : overbridge_h) (m : math_h) (current_usecs : Nat) (s : State)
    (hs : s.ob.status = OB_STATUS_TUNE)
    (hd : |s.last_o2j_ratio - (overwitch_compute_ratios hdr m current_usecs s).o2j_ratio| < 1) :
    (overwitch_compute_ratios hdr m current_usecs s).ob.status = OB_STATUS_RUN := by
  rw [compute_ratios_status]
  have h0 : c_abs (double_to_int (s.last_o2j_ratio -
      (overwitch_compute_ratios hdr m current_usecs s).o2j_ratio)) = 0 := by
    unfold double_to_int
    rw [c_trunc_of_abs_lt_one _ hd]
    decide
  rw [h0]
  simp [hs]

theorem j2o_status (hdr : overbridge_h) (src : src_call) (s : State) :
    (overwitch_j2o hdr src s).ob.status = s.ob.status := by
  unfold overwitch_j2o
  simp only [src_callback_read]
  split_ifs <;> simp [j2o_reader_iterate_ob]

/-- The status after a process cycle is the one left by the controller. -/
theorem process_cb_status (hdr : overbridge_h) (m : math_h)
    (inp : process_in) (nframes : Nat) (s : State) :
    (overwitch_process_cb hdr m inp nframes s).2.ob.status =
      (overwitch_compute_ratios hdr m inp.current_usecs s).ob.status := by
  unfold overwitch_process_cb
  simp only [j2o_status]
  exact (o2j_ob inp.o2j_src (overwitch_compute_ratios hdr m inp.current_usecs s)).1

theorem o2j_reader_counters (s : State) :
    (overwitch_o2j_reader s).2.i = s.i ∧
    (overwitch_o2j_reader s).2.log_control_cycles = s.log_control_cycles := by
  unfold overwitch_o2j_reader
  simp only
  split_ifs <;> simp

theorem o2j_reader_iterate_counters (n : Nat) :
    ∀ s : State,
      ((fun t => (overwitch_o2j_reader t).2)^[n] s).i = s.i ∧
      ((fun t => (overwitch_o2j_reader t).2)^[n] s).log_control_cycles
        = s.log_control_cycles := by
  induction n with
  | zero => intro s; exact ⟨rfl, rfl⟩
  | succ n ih =>
    intro s
    rw [Function.iterate_succ_apply]
    have h1 := ih (overwitch_o2j_reader s).2
    have h2 := o2j_reader_counters s
    exact ⟨h1.1.trans h2.1, h1.2.trans h2.2⟩

theorem j2o_reader_counters (s : State) :
    (overwitch_j2o_reader s).2.i = s.i ∧
    (overwitch_j2o_reader s).2.log_control_cycles = s.log_control_cycles := by
  unfold overwitch_j2o_reader
  split_ifs <;> exact ⟨rfl, rfl⟩

theorem j2o_reader_iterate_counters (n : Nat) :
    ∀ s : State,
      ((fun t => (overwitch_j2o_reader t).2)^[n] s).i = s.i ∧
      ((fun t => (overwitch_j2o_reader t).2)^[n] s).log_control_cycles
        = s.log_control_cycles := by
  induction n with
  | zero => intro s; exact ⟨rfl, rfl⟩
  | succ n ih =>
    intro s
    rw [Function.iterate_succ_apply]
    have h1 := ih (overwitch_j2o_reader s).2
    have h2 := j2o_reader_counters s
    exact ⟨h1.1.trans h2.1, h1.2.trans h2.2⟩

/-- The o2j path of the process cycle is no writer of the status, of `i` or of
`log_control_cycles`. -/
theorem quiet_o2j (src : src_call) : quiet (overwitch_o2j src) := by
  intro s
  refine ⟨(o2j_ob src s).1, ?_, ?_⟩
  · unfold overwitch_o2j
    simp only [src_callback_read]
    exact (o2j_reader_iterate_counters src.calls _).1
  · unfold overwitch_o2j
    simp only [src_callback_read]
    exact (o2j_reader_iterate_counters src.calls _).2

/-- The j2o path of the process cycle is no writer of the status, of `i` or of
`log_control_cycles`. -/
theorem quiet_j2o (hdr : overbridge_h) (src : src_call) : quiet (overwitch_j2o hdr src) := by
  intro s
  refine ⟨j2o_status hdr src s, ?_, ?_⟩
  · unfold overwitch_j2o
    simp only [src_callback_read]
    split_ifs <;> simp [j2o_reader_iterate_counters]
  · unfold overwitch_j2o
    simp only [src_callback_read]
    split_ifs <;> simp [j2o_reader_iterate_counters]

/-- The counter `kj` after a call that takes the retune branch (lines 329, 375-376). -/
theorem compute_ratios_kj_retune (hdr : overbridge_h) (m : math_h) (current_usecs : Nat) (s : State)
    (h : to_int32 (s.i + 1) = s.log_control_cycles ∧ s.ob.status = OB_STATUS_STARTUP) :
    (overwitch_compute_ratios hdr m current_usecs s).kj =
      to_uint32 ((to_uint32 ((s.kj : Int) + s.read_frames) : Int)
        + double_to_int ((⌊cycle_err current_usecs s + 1 / 2⌋ : Int) : ℚ)) := by
  unfold overwitch_compute_ratios
  simp [h, overwitch_set_loop_filter, cycle_err]

theorem c_trunc_intCast (z : Int) : c_trunc (z : ℚ) = z := by
  unfold c_trunc
  split_ifs <;> simp

theorem o2j_reader_running (s : State) (h : s.running = true) :
    (overwitch_o2j_reader s).2.running = true := by
  unfold overwitch_o2j_reader
  simp only [h, if_true]
  split_ifs <;> simp [h]

theorem o2j_reader_iterate_running (n : Nat) :
    ∀ s : State, s.running = true →
      ((fun t => (overwitch_o2j_reader t).2)^[n] s).running = true := by
  induction n with
  | zero => intro s h; exact h
  | succ n ih =>
    intro s h
    rw [Function.iterate_succ_apply]
    exact ih _ (o2j_reader_running s h)

theorem compute_ratios_running (hdr : overbridge_h) (m : math_h) (current_usecs : Nat) (s : State) :
    (overwitch_compute_ratios hdr m current_usecs s).running = s.running := by
  unfold overwitch_compute_ratios
  by_cases h : (to_int32 (s.i + 1) = s.log_control_cycles) ∧ s.ob.status = OB_STATUS_STARTUP
  · simp [h, overwitch_set_loop_filter]
  · simp [h]

theorem j2o_reader_running (s : State) :
    (overwitch_j2o_reader s).2.running = s.running := by
  unfold overwitch_j2o_reader
  split_ifs <;> rfl

theorem j2o_reader_iterate_running (n : Nat) :
    ∀ s : State, ((fun t => (overwitch_j2o_reader t).2)^[n] s).running = s.running := by
  induction n with
  | zero => intro s; rfl
  | succ n ih =>
    intro s
    rw [Function.iterate_succ_apply, ih, j2o_reader_running]

theorem j2o_running (hdr : overbridge_h) (src : src_call) (s : State) :
    (overwitch_j2o hdr src s).running = s.running := by
  unfold overwitch_j2o
  simp only [src_callback_read]
  split_ifs <;> simp [j2o_reader_iterate_running]

theorem process_cb_running (hdr : overbridge_h) (m : math_h)
    (inp : process_in) (nframes : Nat) (s : State)
    (h : s.running = true) : (overwitch_process_cb hdr m inp nframes s).2.running = true := by
  unfold overwitch_process_cb
  simp only [j2o_running]
  unfold overwitch_o2j
  simp only [src_callback_read]
  apply o2j_reader_iterate_running
  simp [compute_ratios_running, h]

/-- A read of `cnt` readable bytes removes exactly these from the ring and puts
them, in order, at the start of the destination. -/
theorem ringbuffer_read_fits (rb : jack_ringbuffer_t) (dest : Mem) (cnt : Nat)
    (h : cnt ≤ jack_ringbuffer_read_space rb) :
    (jack_ringbuffer_read rb dest cnt).1 = ⟨rb.buf.drop cnt, rb.size⟩ ∧
    (List.range cnt).map (jack_ringbuffer_read rb dest cnt).2 = rb.buf.take cnt ∧
    (∀ k, cnt ≤ k → (jack_ringbuffer_read rb dest cnt).2 k = dest k) := by
  have hlen : cnt ≤ rb.buf.length := h
  refine ⟨?_, ?_, ?_⟩
  · simp [jack_ringbuffer_read, jack_ringbuffer_read_space, Nat.min_eq_left hlen]
  · apply List.ext_getElem
    · simp [Nat.min_eq_left hlen]
    · intro i h1 h2
      have hi : i < cnt := by simpa using h1
      have hil : i < rb.buf.length := lt_of_lt_of_le hi hlen
      simp [jack_ringbuffer_read, jack_ringbuffer_read_space, Nat.min_eq_left hlen, hi,
        List.getElem?_eq_getElem hil]
  · intro k hk
    simp [jack_ringbuffer_read, jack_ringbuffer_read_space, Nat.min_eq_left hlen,
      Nat.not_lt.mpr hk]

/-- The running read of `overwitch_o2j_reader` (lines 192-198). -/
theorem o2j_reader_running_read (s : State) (hr : s.running = true)
    (hrs : s.ob.o2j_frame_bytes ≤ jack_ringbuffer_read_space s.ob.o2j_rb) :
    (overwitch_o2j_reader s).1 =
      ((min (jack_ringbuffer_read_space s.ob.o2j_rb / s.ob.o2j_frame_bytes)
        MAX_READ_FRAMES : Nat) : Int) ∧
    (overwitch_o2j_reader s).2.ob.o2j_rb =
      (jack_ringbuffer_read s.ob.o2j_rb s.o2j_buf_in
        (min (jack_ringbuffer_read_space s.ob.o2j_rb / s.ob.o2j_frame_bytes) MAX_READ_FRAMES
          * s.ob.o2j_frame_bytes)).1 ∧
    (overwitch_o2j_reader s).2.o2j_buf_in =
      (jack_ringbuffer_read s.ob.o2j_rb s.o2j_buf_in
        (min (jack_ringbuffer_read_space s.ob.o2j_rb / s.ob.o2j_frame_bytes) MAX_READ_FRAMES
          * s.ob.o2j_frame_bytes)).2 := by
  have hmin : (if jack_ringbuffer_read_space s.ob.o2j_rb / s.ob.o2j_frame_bytes > MAX_READ_FRAMES
      then MAX_READ_FRAMES
      else jack_ringbuffer_read_space s.ob.o2j_rb / s.ob.o2j_frame_bytes)
      = min (jack_ringbuffer_read_space s.ob.o2j_rb / s.ob.o2j_frame_bytes) MAX_READ_FRAMES := by
    split_ifs with h
    · exact (Nat.min_eq_right (le_of_lt h)).symm
    · exact (Nat.min_eq_left (Nat.not_lt.mp h)).symm
  unfold overwitch_o2j_reader
  simp only [hr, if_true, ge_iff_le, hrs, hmin]
  simp

/-- The concealment branch of `overwitch_o2j_reader` (lines 199-210): only when
the previous batch had more than one frame is anything copied, and then one
frame, to the start of `o2j_buf_in`. -/
theorem o2j_reader_hold_last (s : State) (hr : s.running = true)
    (hrs : jack_ringbuffer_read_space s.ob.o2j_rb < s.ob.o2j_frame_bytes) :
    (overwitch_o2j_reader s).1 = (MAX_READ_FRAMES : Int) ∧
    (overwitch_o2j_reader s).2.ob.o2j_rb = s.ob.o2j_rb ∧
    (overwitch_o2j_reader s).2.o2j_buf_in =
      if s.last_frames > 1 then
        memcpy s.o2j_buf_in 0 s.o2j_buf_in
          (sample_bytes * ((s.last_frames - 1).toNat * s.ob.outputs)) s.ob.o2j_frame_bytes
      else s.o2j_buf_in := by
  unfold overwitch_o2j_reader
  simp only [hr, if_true, ge_iff_le, Nat.not_le.mpr hrs, if_false]
  simp

/-- What the concealment leaves in `o2j_buf_in` when frames are
`sample_bytes * outputs` bytes: frame 0 is the last frame of the previous batch,
every byte after frame 0 is as it was. -/
theorem o2j_reader_hold_last_bytes (s : State) (hr : s.running = true)
    (hrs : jack_ringbuffer_read_space s.ob.o2j_rb < s.ob.o2j_frame_bytes)
    (hfb : s.ob.o2j_frame_bytes = sample_bytes * s.ob.outputs) (hl : 1 ≤ s.last_frames) :
    (∀ b, b < s.ob.o2j_frame_bytes →
      (overwitch_o2j_reader s).2.o2j_buf_in b
        = s.o2j_buf_in ((s.last_frames - 1).toNat * s.ob.o2j_frame_bytes + b)) ∧
    (∀ k, s.ob.o2j_frame_bytes ≤ k →
      (overwitch_o2j_reader s).2.o2j_buf_in k = s.o2j_buf_in k) := by
  rw [(o2j_reader_hold_last s hr hrs).2.2]
  constructor
  · intro b hb
    by_cases h1 : s.last_frames > 1
    · have e : sample_bytes * ((s.last_frames - 1).toNat * s.ob.outputs)
          = (s.last_frames - 1).toNat * s.ob.o2j_frame_bytes := by
        rw [hfb]; ring
      rw [if_pos h1, e]
      simp [memcpy, hb]
    · have e : s.last_frames - 1 = 0 := by omega
      simp [h1, e]
  · intro k hk
    by_cases h1 : s.last_frames > 1
    · simp [h1, memcpy, Nat.not_lt.mpr hk]
    · simp [h1]

theorem j2o_reader_empty (s : State) (h : s.j2o_queue_len = 0) :
    overwitch_j2o_reader s = ((s.bufsize : Int), s) := by
  simp [overwitch_j2o_reader, h]

theorem j2o_reader_nonempty (s : State) (h : s.j2o_queue_len ≠ 0) :
    (overwitch_j2o_reader s).1 = (s.j2o_queue_len : Int) ∧
    (overwitch_j2o_reader s).2.j2o_queue_len = 0 ∧
    (overwitch_j2o_reader s).2.j2o_buf_in =
      memcpy s.j2o_buf_in 0 s.j2o_queue 0 (s.j2o_queue_len * s.ob.j2o_frame_bytes) := by
  simp [overwitch_j2o_reader, h]

theorem to_int32_add_left (a b : Int) : to_int32 (to_int32 a + b) = to_int32 (a + b) := by
  unfold to_int32
  omega

theorem o2j_reader_read_frames (s : State) :
    (overwitch_o2j_reader s).2.read_frames
      = to_int32 (s.read_frames + (overwitch_o2j_reader s).1) := by
  unfold overwitch_o2j_reader
  simp only
  split_ifs <;> simp

theorem j2o_reader_read_frames (s : State) :
    (overwitch_j2o_reader s).2.read_frames = s.read_frames := by
  unfold overwitch_j2o_reader
  split_ifs <;> rfl

theorem j2o_reader_iterate_read_frames (n : Nat) :
    ∀ s : State, ((fun t => (overwitch_j2o_reader t).2)^[n] s).read_frames = s.read_frames := by
  induction n with
  | zero => intro s; rfl
  | succ n ih =>
    intro s
    rw [Function.iterate_succ_apply, ih, j2o_reader_read_frames]

theorem o2j_reader_iterate_read_frames (n : Nat) :
    ∀ (s : State) (a : Int), s.read_frames = to_int32 a →
      ((fun t => (overwitch_o2j_reader t).2)^[n] s).read_frames
        = to_int32 (a + frames_returned overwitch_o2j_reader n s) := by
  induction n with
  | zero => intro s a h; simpa [frames_returned] using h
  | succ n ih =>
    intro s a h
    rw [Function.iterate_succ_apply]
    have h1 : (overwitch_o2j_reader s).2.read_frames
        = to_int32 (a + (overwitch_o2j_reader s).1) := by
      rw [o2j_reader_read_frames, h, to_int32_add_left]
    rw [ih _ _ h1]
    simp only [frames_returned]
    congr 1
    ring

theorem o2j_read_frames (src : src_call) (s : State) :
    (overwitch_o2j src s).read_frames
      = to_int32 (frames_returned overwitch_o2j_reader src.calls { s with read_frames := 0 }) := by
  unfold overwitch_o2j
  simp only [src_callback_read]
  have h0 : to_int32 0 = 0 := by decide
  have h := o2j_reader_iterate_read_frames src.calls { s with read_frames := 0 } 0 h0.symm
  simpa using h

theorem j2o_read_frames (hdr : overbridge_h) (src : src_call) (s : State) :
    (overwitch_j2o hdr src s).read_frames = s.read_frames := by
  unfold overwitch_j2o
  simp only [src_callback_read]
  split_ifs <;> simp [j2o_reader_iterate_read_frames]

theorem compute_ratios_kj_no_retune (hdr : overbridge_h) (m : math_h)
    (current_usecs : Nat) (s : State)
    (h : ¬ (to_int32 (s.i + 1) = s.log_control_cycles ∧ s.ob.status = OB_STATUS_STARTUP)) :
    (overwitch_compute_ratios hdr m current_usecs s).kj
      = to_uint32 ((s.kj : Int) + s.read_frames) := by
  unfold overwitch_compute_ratios
  simp [h]

/-- After a process cycle `read_frames` is the total returned by the o2j feeder
in that cycle (as an `int`). -/
theorem process_cb_read_frames (hdr : overbridge_h) (m : math_h)
    (inp : process_in) (nframes : Nat) (s : State) :
    (overwitch_process_cb hdr m inp nframes s).2.read_frames
      = to_int32 (frames_returned overwitch_o2j_reader inp.o2j_src.calls
          { overwitch_compute_ratios hdr m inp.current_usecs s with read_frames := 0 }) := by
  unfold overwitch_process_cb
  simp only [j2o_read_frames, o2j_read_frames]

theorem c_trunc_bounds (q : ℚ) :
    |q - (c_trunc q : ℚ)| < 1 ∧ |(c_trunc q : ℚ)| ≤ |q| := by
  unfold c_trunc
  split_ifs with h
  · have h1 := Int.floor_le q
    have h2 := Int.lt_floor_add_one q
    have h3 : (0 : ℚ) ≤ (⌊q⌋ : ℚ) := by exact_mod_cast Int.floor_nonneg.mpr h
    constructor
    · rw [abs_lt]; constructor <;> linarith
    · rw [abs_of_nonneg h3, abs_of_nonneg h]; exact h1
  · have hq : q < 0 := not_le.mp h
    have h1 := Int.le_ceil q
    have h2 := Int.ceil_lt_add_one q
    have h3 : (⌈q⌉ : ℚ) ≤ 0 := by exact_mod_cast Int.ceil_le.mpr (by simpa using le_of_lt hq)
    constructor
    · rw [abs_lt]; constructor <;> linarith
    · rw [abs_of_nonpos h3, abs_of_neg hq]; linarith

/-- One step of the accumulator when the frame counts fit an `int`: the new
accumulator is below 1 in absolute value and the frames requested are
`bufsize * ratio` plus the old minus the new accumulator. -/
theorem j2o_accumulate_step (B : Nat) (ratio acc : ℚ) (hacc : |acc| < 1)
    (hB : B < 1073741824) (hr : |(B : ℚ) * (ratio - 1)| ≤ 1073741824) :
    |(j2o_accumulate B ratio acc).1| < 1 ∧
    ((j2o_accumulate B ratio acc).2 : ℚ) = B * ratio + acc - (j2o_accumulate B ratio acc).1 ∧
    (j2o_accumulate B ratio acc).2 = B + c_trunc (acc + B * (ratio - 1)) := by
  have hb := c_trunc_bounds (acc + B * (ratio - 1))
  have ha : |acc + (B : ℚ) * (ratio - 1)| < 1073741825 := by
    calc |acc + (B : ℚ) * (ratio - 1)| ≤ |acc| + |(B : ℚ) * (ratio - 1)| := abs_add _ _
      _ < 1073741825 := by linarith
  have hc : |(c_trunc (acc + B * (ratio - 1)) : ℚ)| < 1073741825 := lt_of_le_of_lt hb.2 ha
  have hc' := abs_lt.mp hc
  have hc1 : -1073741825 < c_trunc (acc + B * (ratio - 1)) := by exact_mod_cast hc'.1
  have hc2 : c_trunc (acc + B * (ratio - 1)) < 1073741825 := by exact_mod_cast hc'.2
  have hinc : double_to_int ((c_trunc (acc + B * (ratio - 1)) : Int) : ℚ)
      = c_trunc (acc + B * (ratio - 1)) := by
    rw [double_to_int, c_trunc_intCast, to_int32_of_range] <;> omega
  have hfr : to_int32 ((B : Int) + c_trunc (acc + B * (ratio - 1)))
      = (B : Int) + c_trunc (acc + B * (ratio - 1)) := by
    rw [to_int32_of_range] <;> omega
  simp only [j2o_accumulate, hinc, hfr]
  refine ⟨hb.1, ?_, trivial⟩
  push_cast
  ring

theorem j2o_acc_eq (hdr : overbridge_h) (src : src_call) (s : State) :
    (overwitch_j2o hdr src s).j2o_acc = (j2o_accumulate s.bufsize s.j2o_ratio s.j2o_acc).1 ∧
    (overwitch_j2o hdr src s).bufsize = s.bufsize := by
  have hacc : ∀ (n : Nat) (t : State),
      ((fun t => (overwitch_j2o_reader t).2)^[n] t).j2o_acc = t.j2o_acc ∧
      ((fun t => (overwitch_j2o_reader t).2)^[n] t).bufsize = t.bufsize := by
    intro n
    induction n with
    | zero => intro t; exact ⟨rfl, rfl⟩
    | succ n ih =>
      intro t
      rw [Function.iterate_succ_apply]
      have h1 := ih (overwitch_j2o_reader t).2
      have h2 : (overwitch_j2o_reader t).2.j2o_acc = t.j2o_acc ∧
          (overwitch_j2o_reader t).2.bufsize = t.bufsize := by
        unfold overwitch_j2o_reader
        split_ifs <;> exact ⟨rfl, rfl⟩
      exact ⟨h1.1.trans h2.1, h1.2.trans h2.2⟩
  unfold overwitch_j2o
  simp only [src_callback_read]
  split_ifs <;> simp [hacc]

/-- The accumulator over a sequence of calls. -/
theorem run_j2o_accumulator (hdr : overbridge_h) (B : Nat) (hB : B < 1073741824) :
    ∀ (cs : List j2o_cycle) (s : State), s.bufsize = B → |s.j2o_acc| < 1 →
      (∀ c ∈ cs, |(B : ℚ) * (c.ratio - 1)| ≤ 1073741824) →
      |(run_j2o hdr cs s).j2o_acc| < 1 ∧
      ((j2o_requested hdr cs s : Int) : ℚ)
        = (cs.map (fun c => (B : ℚ) * c.ratio)).sum + s.j2o_acc - (run_j2o hdr cs s).j2o_acc := by
  intro cs
  induction cs with
  | nil => intro s _ hacc _; simp [run_j2o, j2o_requested, hacc]
  | cons c cs ih =>
    intro s hb hacc hr
    have step := j2o_accumulate_step B c.ratio s.j2o_acc hacc hB
      (hr c (List.mem_cons_self _ _))
    have hj := j2o_acc_eq hdr c.src { s with j2o_ratio := c.ratio }
    have hj1 : (overwitch_j2o hdr c.src { s with j2o_ratio := c.ratio }).j2o_acc
        = (j2o_accumulate B c.ratio s.j2o_acc).1 := by
      rw [hj.1]
      show (j2o_accumulate s.bufsize c.ratio s.j2o_acc).1 = _
      rw [hb]
    have hj2 : (overwitch_j2o hdr c.src { s with j2o_ratio := c.ratio }).bufsize = B :=
      hj.2.trans hb
    have hnext := ih (overwitch_j2o hdr c.src { s with j2o_ratio := c.ratio })
      hj2 (by rw [hj1]; exact step.1)
      (fun c' hc' => hr c' (List.mem_cons_of_mem _ hc'))
    simp only [run_j2o, j2o_requested, List.map_cons, List.sum_cons]
    refine ⟨hnext.1, ?_⟩
    generalize overwitch_j2o hdr c.src { s with j2o_ratio := c.ratio } = s' at hj1 hnext ⊢
    rw [hb]
    push_cast
    rw [hnext.2, step.2.1, hj1]
    ring

theorem example_j2o_cycles_fit :
    ∀ c ∈ example_j2o_cycles,
      |(((queue_state 0).bufsize : Nat) : ℚ) * (c.ratio - 1)| ≤ 1073741824 := by
  intro c hc
  have hb : (queue_state 0).bufsize = 2 := rfl
  rw [hb]
  simp only [example_j2o_cycles, List.mem_cons, List.mem_singleton, List.not_mem_nil,
    or_false] at hc
  rcases hc with rfl | rfl
  · rw [abs_le]; constructor <;> norm_num
  · rw [abs_le]; constructor <;> norm_num

theorem memcpy_apply (dst : Mem) (doff : Nat) (src : Mem) (soff n k : Nat) :
    memcpy dst doff src soff n k
      = if doff ≤ k ∧ k < doff + n then src (soff + (k - doff)) else dst k := rfl

theorem store_port_apply (ports : Nat → Mem) (j i : Nat) (src : Mem) (f p x : Nat) :
    store_port ports j i src f p x
      = if p = j then
          (if 4 * i ≤ x ∧ x < 4 * i + 4 then src (4 * f + (x - 4 * i)) else ports p x)
        else ports p x := by
  unfold store_port
  split_ifs <;> simp_all [memcpy_apply, sample_bytes]

/-- The inner loop of the deinterleave (lines 422-426) for frame `i`, after `J`
channels. -/
theorem deinterleave_frame (src : Mem) (i : Nat) (a : (Nat → Mem) × Nat) :
    ∀ J : Nat,
      ((List.range J).foldl
          (fun (b : (Nat → Mem) × Nat) j => (store_port b.1 j i src b.2, b.2 + 1)) a).2
        = a.2 + J ∧
      ∀ p x,
        ((List.range J).foldl
          (fun (b : (Nat → Mem) × Nat) j => (store_port b.1 j i src b.2, b.2 + 1)) a).1 p x
        = if p < J ∧ 4 * i ≤ x ∧ x < 4 * i + 4 then src (4 * (a.2 + p) + (x - 4 * i))
          else a.1 p x := by
  intro J
  induction J with
  | zero => simp
  | succ J ih =>
    rw [List.range_succ, List.foldl_append]
    simp only [List.foldl_cons, List.foldl_nil]
    refine ⟨by rw [ih.1]; omega, ?_⟩
    intro p x
    rw [store_port_apply, ih.1, ih.2]
    by_cases hp : p = J
    · subst hp
      by_cases hx : 4 * i ≤ x ∧ x < 4 * i + 4
      · simp [hx]
      · simp [hx]
    · by_cases hx : 4 * i ≤ x ∧ x < 4 * i + 4
      · by_cases hlt : p < J
        · simp [hp, hx, hlt, Nat.lt_succ_of_lt hlt]
        · have : ¬ p < J + 1 := by omega
          simp [hp, hx, hlt, this]
      · simp [hp, hx]

/-- The deinterleave loops (lines 420-427) after `N` frames: sample `i` of port
`p` is sample `i * outputs + p` of the source. -/
theorem deinterleave_frames (outputs : Nat) (src : Mem) (ports : Nat → Mem) :
    ∀ N : Nat,
      ((List.range N).foldl
        (fun (a : (Nat → Mem) × Nat) i =>
          (List.range outputs).foldl
            (fun (b : (Nat → Mem) × Nat) j => (store_port b.1 j i src b.2, b.2 + 1)) a)
        (ports, 0)).2 = N * outputs ∧
      ∀ i p b, i < N → p < outputs → b < 4 →
        ((List.range N).foldl
          (fun (a : (Nat → Mem) × Nat) i =>
            (List.range outputs).foldl
              (fun (b : (Nat → Mem) × Nat) j => (store_port b.1 j i src b.2, b.2 + 1)) a)
          (ports, 0)).1 p (4 * i + b) = src (4 * (i * outputs + p) + b) := by
  intro N
  induction N with
  | zero => simp
  | succ N ih =>
    rw [List.range_succ, List.foldl_append]
    simp only [List.foldl_cons, List.foldl_nil]
    have hin := deinterleave_frame src N
      ((List.range N).foldl
        (fun (a : (Nat → Mem) × Nat) i =>
          (List.range outputs).foldl
            (fun (b : (Nat → Mem) × Nat) j => (store_port b.1 j i src b.2, b.2 + 1)) a)
        (ports, 0)) outputs
    refine ⟨by rw [hin.1, ih.1]; ring, ?_⟩
    intro i p b hi hp hb
    rw [hin.2]
    by_cases hN : i = N
    · subst hN
      have hc : p < outputs ∧ 4 * i ≤ 4 * i + b ∧ 4 * i + b < 4 * i + 4 := ⟨hp, by omega, by omega⟩
      rw [if_pos hc, ih.1]
      congr 1
      omega
    · have hc : ¬ (p < outputs ∧ 4 * N ≤ 4 * i + b ∧ 4 * i + b < 4 * N + 4) := by omega
      rw [if_neg hc]
      exact ih.2 i p b (by omega) hp hb

theorem deinterleave_sample (outputs nframes : Nat) (src : Mem) (ports : Nat → Mem)
    (i p b : Nat) (hi : i < nframes) (hp : p < outputs) (hb : b < 4) :
    deinterleave outputs nframes src ports p (4 * i + b) = src (4 * (i * outputs + p) + b) :=
  (deinterleave_frames outputs src ports nframes).2 i p b hi hp hb

/-- The inner loop of the interleave (lines 438-442) for frame `i`, after `J`
channels. -/
theorem interleave_frame (ports : Nat → Mem) (i : Nat) (a : Mem × Nat) :
    ∀ J : Nat,
      ((List.range J).foldl
          (fun (b : Mem × Nat) j =>
            (memcpy b.1 (sample_bytes * b.2) (ports j) (sample_bytes * i) sample_bytes,
              b.2 + 1)) a).2 = a.2 + J ∧
      ∀ x,
        ((List.range J).foldl
          (fun (b : Mem × Nat) j =>
            (memcpy b.1 (sample_bytes * b.2) (ports j) (sample_bytes * i) sample_bytes,
              b.2 + 1)) a).1 x
        = if 4 * a.2 ≤ x ∧ x < 4 * (a.2 + J) then ports (x / 4 - a.2) (4 * i + x % 4)
          else a.1 x := by
  intro J
  induction J with
  | zero =>
    refine ⟨by simp, ?_⟩
    intro x
    have : ¬ (4 * a.2 ≤ x ∧ x < 4 * (a.2 + 0)) := by omega
    rw [if_neg this]
    rfl
  | succ J ih =>
    rw [List.range_succ, List.foldl_append]
    simp only [List.foldl_cons, List.foldl_nil]
    refine ⟨by rw [ih.1]; omega, ?_⟩
    intro x
    rw [memcpy_apply, ih.1, ih.2]
    simp only [sample_bytes]
    by_cases hx : 4 * (a.2 + J) ≤ x ∧ x < 4 * (a.2 + J) + 4
    · have hc : 4 * a.2 ≤ x ∧ x < 4 * (a.2 + (J + 1)) := by omega
      have e1 : x / 4 - a.2 = J := by omega
      have e2 : 4 * i + (x - 4 * (a.2 + J)) = 4 * i + x % 4 := by omega
      rw [if_pos hx, if_pos hc, e1, e2]
    · rw [if_neg hx]
      by_cases hc : 4 * a.2 ≤ x ∧ x < 4 * (a.2 + J)
      · have hc' : 4 * a.2 ≤ x ∧ x < 4 * (a.2 + (J + 1)) := by omega
        rw [if_pos hc, if_pos hc']
      · have hc' : ¬ (4 * a.2 ≤ x ∧ x < 4 * (a.2 + (J + 1))) := by omega
        rw [if_neg hc, if_neg hc']

/-- The interleave loops (lines 436-443) after `N` frames: sample
`i * inputs + j` of the scratch buffer is sample `i` of port `j`; what lies
behind the `N` frames is untouched. -/
theorem interleave_frames (inputs : Nat) (ports : Nat → Mem) (aux : Mem) :
    ∀ N : Nat,
      ((List.range N).foldl
        (fun (a : Mem × Nat) i =>
          (List.range inputs).foldl
            (fun (b : Mem × Nat) j =>
              (memcpy b.1 (sample_bytes * b.2) (ports j) (sample_bytes * i) sample_bytes,
                b.2 + 1)) a)
        (aux, 0)).2 = N * inputs ∧
      (∀ i j b, i < N → j < inputs → b < 4 →
        ((List.range N).foldl
          (fun (a : Mem × Nat) i =>
            (List.range inputs).foldl
              (fun (b : Mem × Nat) j =>
                (memcpy b.1 (sample_bytes * b.2) (ports j) (sample_bytes * i) sample_bytes,
                  b.2 + 1)) a)
          (aux, 0)).1 (4 * (i * inputs + j) + b) = ports j (4 * i + b)) ∧
      (∀ x, 4 * (N * inputs) ≤ x →
        ((List.range N).foldl
          (fun (a : Mem × Nat) i =>
            (List.range inputs).foldl
              (fun (b : Mem × Nat) j =>
                (memcpy b.1 (sample_bytes * b.2) (ports j) (sample_bytes * i) sample_bytes,
                  b.2 + 1)) a)
          (aux, 0)).1 x = aux x) := by
  intro N
  induction N with
  | zero => simp
  | succ N ih =>
    rw [List.range_succ, List.foldl_append]
    simp only [List.foldl_cons, List.foldl_nil]
    have hin := interleave_frame ports N
      ((List.range N).foldl
        (fun (a : Mem × Nat) i =>
          (List.range inputs).foldl
            (fun (b : Mem × Nat) j =>
              (memcpy b.1 (sample_bytes * b.2) (ports j) (sample_bytes * i) sample_bytes,
                b.2 + 1)) a)
        (aux, 0)) inputs
    have hmul : (N + 1) * inputs = N * inputs + inputs := Nat.succ_mul N inputs
    refine ⟨by rw [hin.1, ih.1, hmul], ?_, ?_⟩
    · intro i j b hi hj hb
      rw [hin.2, ih.1]
      by_cases hN : i = N
      · subst hN
        have hc : 4 * (i * inputs) ≤ 4 * (i * inputs + j) + b ∧
            4 * (i * inputs + j) + b < 4 * (i * inputs + inputs) := by omega
        have e1 : (4 * (i * inputs + j) + b) / 4 - i * inputs = j := by omega
        have e2 : (4 * (i * inputs + j) + b) % 4 = b := by omega
        rw [if_pos hc, e1, e2]
      · have hle : (i + 1) * inputs ≤ N * inputs :=
          Nat.mul_le_mul_right inputs (by omega)
        rw [Nat.succ_mul] at hle
        have hc : ¬ (4 * (N * inputs) ≤ 4 * (i * inputs + j) + b ∧
            4 * (i * inputs + j) + b < 4 * (N * inputs + inputs)) := by omega
        rw [if_neg hc]
        exact ih.2.1 i j b (by omega) hj hb
    · intro x hx
      rw [hin.2, ih.1]
      rw [hmul] at hx
      have hc : ¬ (4 * (N * inputs) ≤ x ∧ x < 4 * (N * inputs + inputs)) := by omega
      rw [if_neg hc]
      exact ih.2.2 x (by omega)

theorem interleave_sample (inputs nframes : Nat) (ports : Nat → Mem) (aux : Mem)
    (i j b : Nat) (hi : i < nframes) (hj : j < inputs) (hb : b < 4) :
    interleave inputs nframes ports aux (4 * (i * inputs + j) + b) = ports j (4 * i + b) :=
  (interleave_frames inputs ports aux nframes).2.1 i j b hi hj hb

theorem compute_ratios_tracks (hdr : overbridge_h) (m : math_h) (current_usecs : Nat) (s : State) :
    (overwitch_compute_ratios hdr m current_usecs s).ob.outputs = s.ob.outputs ∧
    (overwitch_compute_ratios hdr m current_usecs s).ob.inputs = s.ob.inputs := by
  unfold overwitch_compute_ratios
  by_cases h : (to_int32 (s.i + 1) = s.log_control_cycles) ∧ s.ob.status = OB_STATUS_STARTUP
  · simp [h, overwitch_set_loop_filter]
  · simp only [h, decide_eq_true_eq, if_false, Bool.decide_and, Bool.and_eq_true]
    simp only [apply_ite overbridge.outputs, apply_ite overbridge.inputs]
    simp

theorem o2j_reader_tracks (s : State) :
    (overwitch_o2j_reader s).2.ob.outputs = s.ob.outputs ∧
    (overwitch_o2j_reader s).2.ob.inputs = s.ob.inputs := by
  unfold overwitch_o2j_reader
  simp only
  split_ifs <;> simp

theorem o2j_reader_iterate_tracks (n : Nat) :
    ∀ s : State,
      ((fun t => (overwitch_o2j_reader t).2)^[n] s).ob.outputs = s.ob.outputs ∧
      ((fun t => (overwitch_o2j_reader t).2)^[n] s).ob.inputs = s.ob.inputs := by
  induction n with
  | zero => intro s; exact ⟨rfl, rfl⟩
  | succ n ih =>
    intro s
    rw [Function.iterate_succ_apply]
    have h1 := ih (overwitch_o2j_reader s).2
    have h2 := o2j_reader_tracks s
    exact ⟨h1.1.trans h2.1, h1.2.trans h2.2⟩

theorem o2j_tracks (src : src_call) (s : State) :
    (overwitch_o2j src s).ob.outputs = s.ob.outputs ∧
    (overwitch_o2j src s).ob.inputs = s.ob.inputs ∧
    (overwitch_o2j src s).o2j_buf_out = src.out := by
  unfold overwitch_o2j
  simp only [src_callback_read]
  have h := o2j_reader_iterate_tracks src.calls { s with read_frames := 0 }
  exact ⟨h.1, h.2, trivial⟩

theorem j2o_reader_iterate_buffers (n : Nat) :
    ∀ s : State,
      ((fun t => (overwitch_j2o_reader t).2)^[n] s).output_ports = s.output_ports ∧
      ((fun t => (overwitch_j2o_reader t).2)^[n] s).j2o_aux = s.j2o_aux ∧
      ((fun t => (overwitch_j2o_reader t).2)^[n] s).o2j_buf_out = s.o2j_buf_out := by
  induction n with
  | zero => intro s; exact ⟨rfl, rfl, rfl⟩
  | succ n ih =>
    intro s
    rw [Function.iterate_succ_apply]
    have h1 := ih (overwitch_j2o_reader s).2
    have h2 : (overwitch_j2o_reader s).2.output_ports = s.output_ports ∧
        (overwitch_j2o_reader s).2.j2o_aux = s.j2o_aux ∧
        (overwitch_j2o_reader s).2.o2j_buf_out = s.o2j_buf_out := by
      unfold overwitch_j2o_reader
      split_ifs <;> exact ⟨rfl, rfl, rfl⟩
    exact ⟨h1.1.trans h2.1, h1.2.1.trans h2.2.1, h1.2.2.trans h2.2.2⟩

theorem j2o_buffers (hdr : overbridge_h) (src : src_call) (s : State) :
    (overwitch_j2o hdr src s).output_ports = s.output_ports ∧
    (overwitch_j2o hdr src s).j2o_aux = s.j2o_aux ∧
    (overwitch_j2o hdr src s).o2j_buf_out = s.o2j_buf_out := by
  unfold overwitch_j2o
  simp only [src_callback_read]
  split_ifs <;> simp [j2o_reader_iterate_buffers]

/-- The port buffers and the scratch buffer after a process cycle. -/
theorem process_cb_buffers (hdr : overbridge_h) (m : math_h)
    (inp : process_in) (nframes : Nat) (s : State) :
    (overwitch_process_cb hdr m inp nframes s).2.o2j_buf_out = inp.o2j_src.out ∧
    (overwitch_process_cb hdr m inp nframes s).2.output_ports =
      deinterleave s.ob.outputs nframes inp.o2j_src.out
        (overwitch_o2j inp.o2j_src
          (overwitch_compute_ratios hdr m inp.current_usecs s)).output_ports ∧
    (overwitch_process_cb hdr m inp nframes s).2.j2o_aux =
      interleave s.ob.inputs nframes inp.input_ports
        (overwitch_o2j inp.o2j_src
          (overwitch_compute_ratios hdr m inp.current_usecs s)).j2o_aux := by
  have h1 := compute_ratios_tracks hdr m inp.current_usecs s
  have h2 := o2j_tracks inp.o2j_src (overwitch_compute_ratios hdr m inp.current_usecs s)
  unfold overwitch_process_cb
  simp only [j2o_buffers, h2.1, h2.2.1, h2.2.2, h1.1, h1.2]
  exact ⟨trivial, trivial, trivial⟩

theorem o2j_reader_priming (s : State) (hr : s.running = false)
    (h : jack_ringbuffer_read_space s.ob.o2j_rb < s.o2j_buf_size) :
    (overwitch_o2j_reader s).1 = (MAX_READ_FRAMES : Int) := by
  unfold overwitch_o2j_reader
  simp [hr, Nat.not_le.mpr h]

theorem o2j_reader_flush (s : State) (hr : s.running = false)
    (h : s.o2j_buf_size ≤ jack_ringbuffer_read_space s.ob.o2j_rb) :
    (overwitch_o2j_reader s).1 = (s.bufsize : Int) ∧
    (overwitch_o2j_reader s).2.running = true ∧
    (overwitch_o2j_reader s).2.o2j_buf_in = s.o2j_buf_in := by
  have h' : s.o2j_buf_size ≤ s.ob.o2j_rb.buf.length := h
  unfold overwitch_o2j_reader
  simp [hr, h', jack_ringbuffer_read_space]

/-- The coefficients written by a call that takes the retune branch (lines
369-386), spelled out from lines 85-89 with `bw = 0.05`. -/
theorem compute_ratios_retune_coefficients (hdr : overbridge_h) (m : math_h)
    (current_usecs : Nat) (s : State)
    (h : to_int32 (s.i + 1) = s.log_control_cycles ∧ s.ob.status = OB_STATUS_STARTUP) :
    (overwitch_compute_ratios hdr m current_usecs s)._w0 =
      1 - m.exp (-(2 * m.M_PI * 20 * (5 / 100) * s.bufsize / s.samplerate)) ∧
    (overwitch_compute_ratios hdr m current_usecs s)._w1 =
      2 * m.M_PI * (5 / 100) * (overwitch_compute_ratios hdr m current_usecs s).o2j_ratio
        / s.samplerate * (16 / 10) ∧
    (overwitch_compute_ratios hdr m current_usecs s)._w2 =
      2 * m.M_PI * (5 / 100) * (overwitch_compute_ratios hdr m current_usecs s).o2j_ratio
        / s.samplerate * s.bufsize / (16 / 10) :=
  compute_ratios_retune hdr m current_usecs s h

theorem compute_ratios_times (hdr : overbridge_h) (m : math_h) (current_usecs : Nat)
    (s : State) :
    (overwitch_compute_ratios hdr m current_usecs s).ob.i0_time = s.ob.i0_time ∧
    (overwitch_compute_ratios hdr m current_usecs s).ob.i1_time = s.ob.i1_time := by
  unfold overwitch_compute_ratios
  by_cases h : (to_int32 (s.i + 1) = s.log_control_cycles) ∧ s.ob.status = OB_STATUS_STARTUP
  · simp [h, overwitch_set_loop_filter]
  · simp only [h, decide_eq_true_eq, if_false, Bool.decide_and, Bool.and_eq_true]
    simp only [apply_ite overbridge.i0_time, apply_ite overbridge.i1_time]
    simp

theorem compute_ratios_config (hdr : overbridge_h) (m : math_h) (current_usecs : Nat)
    (s : State) :
    (overwitch_compute_ratios hdr m current_usecs s).bufsize = s.bufsize ∧
    (overwitch_compute_ratios hdr m current_usecs s).samplerate = s.samplerate := by
  unfold overwitch_compute_ratios
  by_cases h : (to_int32 (s.i + 1) = s.log_control_cycles) ∧ s.ob.status = OB_STATUS_STARTUP
  · simp [h, overwitch_set_loop_filter]
  · simp [h]

/-! ## Claims -/

/-- C2 (status monotonicity).  For every controller state and every cycle,
one call of `overwitch_compute_ratios` leaves `ob.status` as it was, or moves it
from STARTUP to TUNE, or from TUNE to RUN.  So the status never moves to an
earlier value of the order STARTUP, TUNE, RUN, STOP, and a status that is STOP
stays STOP.  The rest of the process cycle does not write the status: after
`overwitch_process_cb` it is the one left by `overwitch_compute_ratios`. -/
theorem C2_status_monotone (hdr : overbridge_h) (m : math_h)
    (inp : process_in) (nframes : Nat) (s : State) :
    ((overwitch_compute_ratios hdr m inp.current_usecs s).ob.status = s.ob.status ∨
      (s.ob.status = OB_STATUS_STARTUP ∧
        (overwitch_compute_ratios hdr m inp.current_usecs s).ob.status = OB_STATUS_TUNE) ∨
      (s.ob.status = OB_STATUS_TUNE ∧
        (overwitch_compute_ratios hdr m inp.current_usecs s).ob.status = OB_STATUS_RUN)) ∧
    s.ob.status.life_cycle
      ≤ (overwitch_compute_ratios hdr m inp.current_usecs s).ob.status.life_cycle ∧
    (s.ob.status ≠ OB_STATUS_STOP ∨
      (overwitch_compute_ratios hdr m inp.current_usecs s).ob.status = OB_STATUS_STOP) ∧
    (overwitch_process_cb hdr m inp nframes s).2.ob.status =
      (overwitch_compute_ratios hdr m inp.current_usecs s).ob.status := by
  refine ⟨?_, ?_, ?_, process_cb_status hdr m inp nframes s⟩
  all_goals
    have h := compute_ratios_status hdr m inp.current_usecs s
    generalize (overwitch_compute_ratios hdr m inp.current_usecs s).ob.status = st at h ⊢
    split_ifs at h with h1 h2
  · subst h; simp [h1.2]
  · subst h; simp [h2.1]
  · subst h; simp
  · subst h; simp [h1.2, overbridge_status_t.life_cycle]
  · subst h; simp [h2.1, overbridge_status_t.life_cycle]
  · subst h; simp
  · subst h; simp [h1.2]
  · subst h; simp [h2.1]
  · subst h; exact (em (s.ob.status = OB_STATUS_STOP)).symm

/-- C3 (TUNE to RUN threshold), the code at the failing input.  In `tune_state`
the status is TUNE, the previous ratio is 1.01 and the cycle computes the ratio
1, so the two ratios differ by 0.01, which is not below 1e-7; the call still
sets the status to RUN.  The test of line 390 applies the integer function
`abs` to the difference, which is first converted to `int`: the test holds
whenever the difference truncates to 0. -/
theorem C3_run_without_threshold :
    tune_state.ob.status = OB_STATUS_TUNE ∧
    tune_state.last_o2j_ratio = 101 / 100 ∧
    (overwitch_compute_ratios example_h example_math 1000000 tune_state).o2j_ratio = 1 ∧
    ¬ (|(overwitch_compute_ratios example_h example_math 1000000 tune_state).o2j_ratio
          - tune_state.last_o2j_ratio| < 1 / 10000000) ∧
    (overwitch_compute_ratios example_h example_math 1000000 tune_state).ob.status
      = OB_STATUS_RUN := by
  have hr : (overwitch_compute_ratios example_h example_math 1000000 tune_state).o2j_ratio = 1 := by
    simp [overwitch_compute_ratios, tune_state, overwitch_sample_rate_cb, State.init, example_ob,
      example_h, to_int32]
    norm_num
  refine ⟨rfl, rfl, hr, ?_, ?_⟩
  · have habs : |(1 : ℚ) - 101 / 100| = 1 / 100 := by
      rw [abs_sub_comm, abs_of_pos] <;> norm_num
    rw [hr, show tune_state.last_o2j_ratio = 101 / 100 from rfl, habs]
    norm_num
  · rw [compute_ratios_status, hr]
    simp [tune_state, overwitch_sample_rate_cb, State.init, example_ob, to_int32, c_abs,
      double_to_int, c_trunc]
    norm_num

/-- C4 (startup retune after one log interval, exactly once).  Start in STARTUP
with the cycle counter `i = 0` and `log_control_cycles = L >= 1`, and let nothing
but `overwitch_compute_ratios` write the status, `i` or `log_control_cycles`
(every `before` is `quiet`).  Then (a) after fewer than `L` calls the status is
still STARTUP; (b) each of the first `L - 1` calls leaves `_w0`, `_w1`, `_w2` as
they were before the call; (c) the `L`-th call sets the status to TUNE and, the
host rate being set and the observation times distinct (`samplerate ≠ 0` and
`t0 ≠ t1`, so that the quotients of lines 85, 87 and 333 are numbers), writes the
coefficients of `overwitch_set_loop_filter (0.05)`:
`_w0 = 1 - exp (-(2 pi 20 * 0.05 * bufsize / samplerate))`,
`_w1 = 2 pi * 0.05 * o2j_ratio / samplerate * 1.6` and
`_w2 = 2 pi * 0.05 * o2j_ratio / samplerate * bufsize / 1.6`, at the ratio this
call has just computed; (d) every later call leaves `_w0`, `_w1`, `_w2` as they
were before the call, and the status is never STARTUP again. -/
theorem C4_startup_retune_once (hdr : overbridge_h) (m : math_h) (s : State) (L : Nat)
    (hL : 1 ≤ L) (hmax : L ≤ 2147483647)
    (hs : s.ob.status = OB_STATUS_STARTUP) (hi : s.i = 0)
    (hl : s.log_control_cycles = L) :
    (∀ cs : List cycle, (∀ c ∈ cs, quiet c.before) → cs.length < L →
      (run_cycles hdr m cs s).ob.status = OB_STATUS_STARTUP) ∧
    (∀ (cs : List cycle) (c : cycle), (∀ c ∈ cs, quiet c.before) → quiet c.before →
      cs.length + 1 < L →
      (overwitch_compute_ratios hdr m c.current_usecs (c.before (run_cycles hdr m cs s)))._w0 =
        (c.before (run_cycles hdr m cs s))._w0 ∧
      (overwitch_compute_ratios hdr m c.current_usecs (c.before (run_cycles hdr m cs s)))._w1 =
        (c.before (run_cycles hdr m cs s))._w1 ∧
      (overwitch_compute_ratios hdr m c.current_usecs (c.before (run_cycles hdr m cs s)))._w2 =
        (c.before (run_cycles hdr m cs s))._w2) ∧
    (∀ (cs : List cycle) (c : cycle), (∀ c ∈ cs, quiet c.before) → quiet c.before →
      cs.length + 1 = L →
      (overwitch_compute_ratios hdr m c.current_usecs
          (c.before (run_cycles hdr m cs s))).ob.status = OB_STATUS_TUNE ∧
      ((c.before (run_cycles hdr m cs s)).samplerate ≠ 0 →
        (c.before (run_cycles hdr m cs s)).ob.i0_time
          ≠ (c.before (run_cycles hdr m cs s)).ob.i1_time →
        (overwitch_compute_ratios hdr m c.current_usecs (c.before (run_cycles hdr m cs s)))._w0 =
          1 - m.exp (-(2 * m.M_PI * 20 * (5 / 100) * (c.before (run_cycles hdr m cs s)).bufsize
            / (c.before (run_cycles hdr m cs s)).samplerate)) ∧
        (overwitch_compute_ratios hdr m c.current_usecs (c.before (run_cycles hdr m cs s)))._w1 =
          2 * m.M_PI * (5 / 100)
            * (overwitch_compute_ratios hdr m c.current_usecs
                (c.before (run_cycles hdr m cs s))).o2j_ratio
            / (c.before (run_cycles hdr m cs s)).samplerate * (16 / 10) ∧
        (overwitch_compute_ratios hdr m c.current_usecs (c.before (run_cycles hdr m cs s)))._w2 =
          2 * m.M_PI * (5 / 100)
            * (overwitch_compute_ratios hdr m c.current_usecs
                (c.before (run_cycles hdr m cs s))).o2j_ratio
            / (c.before (run_cycles hdr m cs s)).samplerate
            * (c.before (run_cycles hdr m cs s)).bufsize / (16 / 10))) ∧
    (∀ (cs : List cycle) (c : cycle), (∀ c ∈ cs, quiet c.before) → quiet c.before →
      L ≤ cs.length →
      (overwitch_compute_ratios hdr m c.current_usecs
          (c.before (run_cycles hdr m cs s))).ob.status ≠ OB_STATUS_STARTUP ∧
      (overwitch_compute_ratios hdr m c.current_usecs (c.before (run_cycles hdr m cs s)))._w0 =
        (c.before (run_cycles hdr m cs s))._w0 ∧
      (overwitch_compute_ratios hdr m c.current_usecs (c.before (run_cycles hdr m cs s)))._w1 =
        (c.before (run_cycles hdr m cs s))._w1 ∧
      (overwitch_compute_ratios hdr m c.current_usecs (c.before (run_cycles hdr m cs s)))._w2 =
        (c.before (run_cycles hdr m cs s))._w2) := by
  have hi' : s.i = ((0 : Nat) : Int) := by simpa using hi
  refine ⟨?_, ?_, ?_, ?_⟩
  · intro cs hq hlen
    exact (run_cycles_startup hdr m L hmax cs s 0 hq hs hi' hl (by omega)).1
  · intro cs c hq hqc hlen
    have h := run_cycles_startup hdr m L hmax cs s 0 hq hs hi' hl (by omega)
    have hb := hqc (run_cycles hdr m cs s)
    have hr : to_int32 ((c.before (run_cycles hdr m cs s)).i + 1)
        = (((0 + cs.length) + 1 : Nat) : Int) := by
      rw [hb.2.1, h.2.1, to_int32_of_range] <;> omega
    apply compute_ratios_no_retune
    intro hh
    rw [hr, hb.2.2, h.2.2] at hh
    omega
  · intro cs c hq hqc hlen
    have h := run_cycles_startup hdr m L hmax cs s 0 hq hs hi' hl (by omega)
    have hb := hqc (run_cycles hdr m cs s)
    have step := compute_ratios_tune_step hdr m c.current_usecs
      (c.before (run_cycles hdr m cs s)) L
      (0 + cs.length) (hb.1.trans h.1) (hb.2.1.trans h.2.1) (hb.2.2.trans h.2.2) (by omega) hmax
    exact ⟨step.2, fun _ _ => compute_ratios_retune_coefficients hdr m c.current_usecs _
      ⟨step.1, hb.1.trans h.1⟩⟩
  · intro cs c hq hqc hlen
    have h := run_cycles_leaves_startup hdr m L hmax cs s 0 hq hs hi' hl (by omega) (by omega)
    have hb := hqc (run_cycles hdr m cs s)
    have hne : (c.before (run_cycles hdr m cs s)).ob.status ≠ OB_STATUS_STARTUP := by
      rw [hb.1]; exact h
    exact ⟨compute_ratios_not_startup hdr m _ _ hne,
      compute_ratios_no_retune hdr m c.current_usecs _ (fun hh => hne hh.2)⟩

/-- Witness of C4: `retune_state` (log interval 2, host rate 48000, 64 frames
per cycle, coefficients zero) with idle cycles and the example `exp` and `M_PI`:
the first call leaves STARTUP and the coefficients, the second sets TUNE and
writes the retuned coefficients (the ratio of that call is 1), the fourth leaves
the coefficients of the third. -/
theorem C4_startup_retune_once_witness :
    (retune_state.ob.status = OB_STATUS_STARTUP ∧ retune_state.i = 0 ∧
      retune_state.log_control_cycles = ((2 : Nat) : Int)) ∧
    (run_cycles example_h example_math [idle_cycle] retune_state).ob.status
      = OB_STATUS_STARTUP ∧
    ((run_cycles example_h example_math [idle_cycle] retune_state)._w0 = 0 ∧
      (run_cycles example_h example_math [idle_cycle] retune_state)._w1 = 0 ∧
      (run_cycles example_h example_math [idle_cycle] retune_state)._w2 = 0) ∧
    (run_cycles example_h example_math [idle_cycle, idle_cycle] retune_state).ob.status
      = OB_STATUS_TUNE ∧
    ((run_cycles example_h example_math [idle_cycle, idle_cycle] retune_state)._w0
        = 71 / 8475 ∧
      (run_cycles example_h example_math [idle_cycle, idle_cycle] retune_state)._w1
        = 71 / 6780000 ∧
      (run_cycles example_h example_math [idle_cycle, idle_cycle] retune_state)._w2
        = 71 / 271200) ∧
    (run_cycles example_h example_math (List.replicate 4 idle_cycle) retune_state)._w0
      = (run_cycles example_h example_math (List.replicate 3 idle_cycle) retune_state)._w0 :=
  have h := C4_startup_retune_once example_h example_math retune_state 2 (by decide)
    (by decide) rfl rfl rfl
  have hq1 : ∀ c ∈ [idle_cycle], quiet c.before := quiet_replicate_idle 1
  have hc := h.2.2.1 [idle_cycle] idle_cycle hq1 quiet_idle_cycle rfl
  have hcfg := compute_ratios_config example_h example_math 1000000 retune_state
  have hsr : (idle_cycle.before
      (run_cycles example_h example_math [idle_cycle] retune_state)).samplerate = 48000 :=
    hcfg.2.trans rfl
  have hbs : (idle_cycle.before
      (run_cycles example_h example_math [idle_cycle] retune_state)).bufsize = 64 :=
    hcfg.1.trans rfl
  have hratio : (overwitch_compute_ratios example_h example_math idle_cycle.current_usecs
      (idle_cycle.before
        (run_cycles example_h example_math [idle_cycle] retune_state))).o2j_ratio = 1 := by
    simp [run_cycles, idle_cycle, overwitch_compute_ratios, retune_state, absorb_state,
      State.init, example_ob, to_int32, overwitch_set_loop_filter]
    norm_num
  have hw := hc.2 (by rw [hsr]; norm_num)
    (by
      rw [show (idle_cycle.before
          (run_cycles example_h example_math [idle_cycle] retune_state)).ob
        = (overwitch_compute_ratios example_h example_math 1000000 retune_state).ob from rfl,
        (compute_ratios_times example_h example_math 1000000 retune_state).1,
        (compute_ratios_times example_h example_math 1000000 retune_state).2]
      norm_num [retune_state, absorb_state, State.init, example_ob])
  have hw0 : (overwitch_compute_ratios example_h example_math idle_cycle.current_usecs
      (idle_cycle.before
        (run_cycles example_h example_math [idle_cycle] retune_state)))._w0 = 71 / 8475 := by
    rw [hw.1, hsr, hbs]; norm_num [example_math]
  have hw1 : (overwitch_compute_ratios example_h example_math idle_cycle.current_usecs
      (idle_cycle.before
        (run_cycles example_h example_math [idle_cycle] retune_state)))._w1 = 71 / 6780000 := by
    rw [hw.2.1, hratio, hsr]; norm_num [example_math]
  have hw2 : (overwitch_compute_ratios example_h example_math idle_cycle.current_usecs
      (idle_cycle.before
        (run_cycles example_h example_math [idle_cycle] retune_state)))._w2 = 71 / 271200 := by
    rw [hw.2.2, hratio, hsr, hbs]; norm_num [example_math]
  ⟨⟨rfl, rfl, rfl⟩,
   h.1 [idle_cycle] hq1 (by decide),
   h.2.1 [] idle_cycle (by simp) quiet_idle_cycle (by decide),
   hc.1,
   ⟨hw0, hw1, hw2⟩,
   (h.2.2.2 (List.replicate 3 idle_cycle) idle_cycle (quiet_replicate_idle 3)
      quiet_idle_cycle (by decide)).2.1⟩

/-- C5 (time-error formula), the code at the failing input.  In `ahead_state` the
observations are (1000, 0 s) and (1256, 1/187 s), `kj = 1100`, `read_frames = 128`
and `kdel = 448`, so at the host time 1 s the host count `kj' = 1228` is ahead of
`k0 = 1000`.  The error of the claim, with the signed difference
`1000 - 1228 = -228`, is `47196`.  The code takes the difference in the
`jack_nframes_t` variable `n` (line 334), which gives `4294967068`: the error it
feeds to the filter (read off `_z1`, since `_z1 = 0` and `_w0 = _w1 = 1`) is
`4295014492`, that is `2^32` more. -/
theorem C5_signed_difference_fails :
    (ahead_state._z1 = 0 ∧ ahead_state._w0 = 1 ∧ ahead_state._w1 = 1) ∧
    ahead_state.ob.i0_time < ahead_state.ob.i1_time ∧
    ((1000 : ℚ) - (1100 + 128)) + (1256 - 1000) * (1 - 0) / (1 / 187 - 0) - 448 = 47196 ∧
    (overwitch_compute_ratios example_h example_math 1000000 ahead_state)._z1 = 4295014492 := by
  have h0 : to_uint32 ((1000 : Nat) : Int) = 1000 := by decide
  have h1 : to_uint32 ((1256 : Nat) : Int) = 1256 := by decide
  have h2 : to_uint32 (((1100 : Nat) : Int) + 128) = 1228 := by decide
  have h3 : to_uint32 (((1256 : Nat) : Int) - ((1000 : Nat) : Int)) = 256 := by decide
  have h4 : to_uint32 (((1000 : Nat) : Int) - ((1228 : Nat) : Int)) = 4294967068 := by decide
  refine ⟨⟨rfl, rfl, rfl⟩, by norm_num [ahead_state, State.init, example_ob], by norm_num,
    ?_⟩
  rw [compute_ratios_z1]
  simp only [ahead_state, State.init, example_ob, time_error]
  rw [h0, h1, h2, h3, h4]
  norm_num

/-- C6 (oversize host buffer is rejected).  On a first call of
`overwitch_buffer_size_cb` (`bufsize` still 0): if `nframes` exceeds
`OB_FRAMES_PER_TRANSFER` the call returns non-zero, the transport status is STOP
and `bufsize`, `kj`, `read_frames`, `kdel`, `log_control_cycles`, `o2j_buf_size`
and `j2o_buf_size` are unchanged; if `0 < nframes <= OB_FRAMES_PER_TRANSFER` the
call returns 0 and `bufsize = nframes`. -/
theorem C6_buffer_size_first_call (c : overbridge_h) (nframes : Nat) (s : State)
    (h0 : s.bufsize = 0) :
    (nframes > c.OB_FRAMES_PER_TRANSFER →
      (overwitch_buffer_size_cb c nframes s).1 ≠ 0 ∧
      (overwitch_buffer_size_cb c nframes s).2.ob.status = OB_STATUS_STOP ∧
      (overwitch_buffer_size_cb c nframes s).2.bufsize = s.bufsize ∧
      (overwitch_buffer_size_cb c nframes s).2.kj = s.kj ∧
      (overwitch_buffer_size_cb c nframes s).2.read_frames = s.read_frames ∧
      (overwitch_buffer_size_cb c nframes s).2.kdel = s.kdel ∧
      (overwitch_buffer_size_cb c nframes s).2.log_control_cycles = s.log_control_cycles ∧
      (overwitch_buffer_size_cb c nframes s).2.o2j_buf_size = s.o2j_buf_size ∧
      (overwitch_buffer_size_cb c nframes s).2.j2o_buf_size = s.j2o_buf_size) ∧
    (0 < nframes → nframes ≤ c.OB_FRAMES_PER_TRANSFER →
      (overwitch_buffer_size_cb c nframes s).1 = 0 ∧
      (overwitch_buffer_size_cb c nframes s).2.bufsize = nframes) := by
  constructor
  · intro h
    simp [overwitch_buffer_size_cb, h0, h, overbridge_set_status]
  · intro _ h
    simp [overwitch_buffer_size_cb, h0, Nat.not_lt.mpr h]

/-- Witness of C6: with 256 frames per transfer, 257 frames are rejected and
128 frames are accepted. -/
theorem C6_buffer_size_first_call_witness :
    ((overwitch_buffer_size_cb example_h 257 (rate_set_state OB_STATUS_STARTUP)).1 ≠ 0 ∧
      (overwitch_buffer_size_cb example_h 257 (rate_set_state OB_STATUS_STARTUP)).2.ob.status
        = OB_STATUS_STOP) ∧
    ((overwitch_buffer_size_cb example_h 128 (rate_set_state OB_STATUS_STARTUP)).1 = 0 ∧
      (overwitch_buffer_size_cb example_h 128 (rate_set_state OB_STATUS_STARTUP)).2.bufsize
        = 128) :=
  have h257 := (C6_buffer_size_first_call example_h 257 (rate_set_state OB_STATUS_STARTUP)
    rfl).1 (by decide)
  ⟨⟨h257.1, h257.2.1⟩,
   (C6_buffer_size_first_call example_h 128 (rate_set_state OB_STATUS_STARTUP) rfl).2
    (by decide) (by decide)⟩

/-- C7 (configuration callbacks accept only once), the claim as stated fails for
the buffer size.  A first call `overwitch_buffer_size_cb (0)` is accepted
(returns 0) and leaves `bufsize = 0`, the value that means "not set"; the second
call with 128 frames is then accepted as well and changes `bufsize`. -/
theorem C7_second_size_accepted_after_zero :
    (overwitch_buffer_size_cb example_h 0 (rate_set_state OB_STATUS_STARTUP)).1 = 0 ∧
    (overwitch_buffer_size_cb example_h 0 (rate_set_state OB_STATUS_STARTUP)).2.bufsize = 0 ∧
    (overwitch_buffer_size_cb example_h 128
      (overwitch_buffer_size_cb example_h 0 (rate_set_state OB_STATUS_STARTUP)).2).1 = 0 ∧
    (overwitch_buffer_size_cb example_h 128
      (overwitch_buffer_size_cb example_h 0 (rate_set_state OB_STATUS_STARTUP)).2).2.bufsize
      = 128 := by
  have h1 := buffer_size_cb_accept example_h 0 (rate_set_state OB_STATUS_STARTUP) rfl
    (by decide)
  have h2 := buffer_size_cb_accept example_h 128
    (overwitch_buffer_size_cb example_h 0 (rate_set_state OB_STATUS_STARTUP)).2 h1.2
    (by decide)
  exact ⟨h1.1, h1.2, h2.1, h2.2⟩

/-- C7 (configuration callbacks accept only once), amended.  After a first
accepted call `overwitch_sample_rate_cb (n1)` with `n1 > 0`, every second call
returns non-zero and leaves the whole state (so `samplerate`, `o2j_ratio`,
`j2o_ratio`, `o2j_ratio_min`, `o2j_ratio_max`) unchanged; after a first accepted
call `overwitch_buffer_size_cb (b1)` with `b1 > 0`, every second call returns
non-zero and leaves the whole state (so `bufsize`, `kj`, `read_frames`, `kdel`,
`log_control_cycles` and the buffer sizes) unchanged. -/
theorem C7_second_call_rejected (c : overbridge_h) (s : State) :
    (∀ n1 n2 : Nat, 0 < n1 → (overwitch_sample_rate_cb c n1 s).1 = 0 →
      (overwitch_sample_rate_cb c n2 (overwitch_sample_rate_cb c n1 s).2).1 ≠ 0 ∧
      (overwitch_sample_rate_cb c n2 (overwitch_sample_rate_cb c n1 s).2).2
        = (overwitch_sample_rate_cb c n1 s).2) ∧
    (∀ b1 b2 : Nat, 0 < b1 → (overwitch_buffer_size_cb c b1 s).1 = 0 →
      (overwitch_buffer_size_cb c b2 (overwitch_buffer_size_cb c b1 s).2).1 ≠ 0 ∧
      (overwitch_buffer_size_cb c b2 (overwitch_buffer_size_cb c b1 s).2).2
        = (overwitch_buffer_size_cb c b1 s).2) := by
  constructor
  · intro n1 n2 hn hacc
    have hs : s.samplerate = 0 := by
      by_contra h
      simp [overwitch_sample_rate_cb, h] at hacc
    have hn1 : (overwitch_sample_rate_cb c n1 s).2.samplerate ≠ 0 := by
      simp [overwitch_sample_rate_cb, hs]
      omega
    rw [sample_rate_cb_reject c n2 _ hn1]
    simp
  · intro b1 b2 hb hacc
    have hs : s.bufsize = 0 := by
      by_contra h
      simp [overwitch_buffer_size_cb, h] at hacc
    have hle : ¬ b1 > c.OB_FRAMES_PER_TRANSFER := by
      intro h
      simp [overwitch_buffer_size_cb, hs, h] at hacc
    have hb1 : (overwitch_buffer_size_cb c b1 s).2.bufsize ≠ 0 := by
      simp [overwitch_buffer_size_cb, hs, hle]
      omega
    rw [buffer_size_cb_reject c b2 _ hb1]
    simp

/-- Witness of C7: rates 48000 then 44100 from the initial state, sizes 128 then
256 once the rate is set. -/
theorem C7_second_call_rejected_witness :
    ((overwitch_sample_rate_cb example_h 44100
        (overwitch_sample_rate_cb example_h 48000
          (State.init (example_ob OB_STATUS_STARTUP))).2).1 ≠ 0 ∧
      (overwitch_sample_rate_cb example_h 44100
        (overwitch_sample_rate_cb example_h 48000
          (State.init (example_ob OB_STATUS_STARTUP))).2).2
        = (overwitch_sample_rate_cb example_h 48000
          (State.init (example_ob OB_STATUS_STARTUP))).2) ∧
    ((overwitch_buffer_size_cb example_h 256
        (overwitch_buffer_size_cb example_h 128 (rate_set_state OB_STATUS_STARTUP)).2).1 ≠ 0 ∧
      (overwitch_buffer_size_cb example_h 256
        (overwitch_buffer_size_cb example_h 128 (rate_set_state OB_STATUS_STARTUP)).2).2
        = (overwitch_buffer_size_cb example_h 128 (rate_set_state OB_STATUS_STARTUP)).2) :=
  ⟨(C7_second_call_rejected example_h (State.init (example_ob OB_STATUS_STARTUP))).1
      48000 44100 (by decide) (by simp [overwitch_sample_rate_cb, State.init]),
   (C7_second_call_rejected example_h (rate_set_state OB_STATUS_STARTUP)).2
      128 256 (by decide)
      (buffer_size_cb_accept example_h 128 (rate_set_state OB_STATUS_STARTUP) rfl
        (by decide)).1⟩

/-- C8 (every configuration rejection stops the bridge), the claim as stated
fails.  With the rate already set and the status RUN, a second call of
`overwitch_sample_rate_cb` returns 1 and the status is still RUN, not STOP. -/
theorem C8_second_rate_keeps_running :
    (overwitch_sample_rate_cb example_h 44100 (rate_set_state OB_STATUS_RUN)).1 = 1 ∧
    (overwitch_sample_rate_cb example_h 44100 (rate_set_state OB_STATUS_RUN)).2.ob.status
      = OB_STATUS_RUN ∧
    (overwitch_sample_rate_cb example_h 44100 (rate_set_state OB_STATUS_RUN)).2.ob.status
      ≠ OB_STATUS_STOP := by
  have hs : (rate_set_state OB_STATUS_RUN).samplerate ≠ 0 := by
    simp [rate_set_state, overwitch_sample_rate_cb, State.init]
  rw [sample_rate_cb_reject example_h 44100 _ hs]
  exact ⟨rfl, rfl, by decide⟩

/-- C8 (configuration rejections), amended.  Only the oversize rejection stops
the bridge.  When `overwitch_sample_rate_cb` returns non-zero the whole state,
the status included, is as before the call.  When `overwitch_buffer_size_cb`
returns non-zero, either it is a first call (`bufsize` still 0) with
`nframes > OB_FRAMES_PER_TRANSFER` and the status is STOP after the call, or
`bufsize` was already set and the whole state, the status included, is as before
the call. -/
theorem C8_rejections (c : overbridge_h) (nframes : Nat) (s : State) :
    ((overwitch_sample_rate_cb c nframes s).1 ≠ 0 →
      (overwitch_sample_rate_cb c nframes s).2 = s) ∧
    ((overwitch_buffer_size_cb c nframes s).1 ≠ 0 →
      (s.bufsize = 0 ∧ nframes > c.OB_FRAMES_PER_TRANSFER ∧
        (overwitch_buffer_size_cb c nframes s).2.ob.status = OB_STATUS_STOP) ∨
      (s.bufsize ≠ 0 ∧ (overwitch_buffer_size_cb c nframes s).2 = s)) := by
  constructor
  · intro h
    by_cases hs : s.samplerate = 0
    · simp [overwitch_sample_rate_cb, hs] at h
    · rw [sample_rate_cb_reject c nframes s hs]
  · intro h
    by_cases hs : s.bufsize = 0
    · by_cases hn : nframes > c.OB_FRAMES_PER_TRANSFER
      · left
        refine ⟨hs, hn, ?_⟩
        simp [overwitch_buffer_size_cb, hs, hn, overbridge_set_status]
      · simp [overwitch_buffer_size_cb, hs, hn] at h
    · right
      exact ⟨hs, by rw [buffer_size_cb_reject c nframes s hs]⟩

/-- Witness of C8: a second sample rate call in RUN leaves the state alone;
257 frames against 256 frames per transfer stop the bridge. -/
theorem C8_rejections_witness :
    (overwitch_sample_rate_cb example_h 44100 (rate_set_state OB_STATUS_RUN)).2
      = rate_set_state OB_STATUS_RUN ∧
    (((rate_set_state OB_STATUS_RUN).bufsize = 0 ∧ 257 > example_h.OB_FRAMES_PER_TRANSFER ∧
        (overwitch_buffer_size_cb example_h 257 (rate_set_state OB_STATUS_RUN)).2.ob.status
          = OB_STATUS_STOP) ∨
      ((rate_set_state OB_STATUS_RUN).bufsize ≠ 0 ∧
        (overwitch_buffer_size_cb example_h 257 (rate_set_state OB_STATUS_RUN)).2
          = rate_set_state OB_STATUS_RUN)) :=
  ⟨(C8_rejections example_h 44100 (rate_set_state OB_STATUS_RUN)).1
      (by rw [sample_rate_cb_reject example_h 44100 _ (by
        simp [rate_set_state, overwitch_sample_rate_cb, State.init])]; decide),
   (C8_rejections example_h 257 (rate_set_state OB_STATUS_RUN)).2
      (by simp [overwitch_buffer_size_cb, rate_set_state, overwitch_sample_rate_cb,
        State.init, example_h])⟩

/-- C9 (j2o writer gating and drop on overflow).  In every call of
`overwitch_j2o`: if the status snapshot is STARTUP or TUNE the j2o ring buffer is
unchanged; if it is RUN and the `gen_frames * j2o_frame_bytes` bytes of converter
output fit the write space of the ring, exactly these bytes (the first bytes of
`j2o_buf_out`, in order) are appended; if it is RUN and they do not fit, the ring
buffer is unchanged. -/
theorem C9_j2o_writer (hdr : overbridge_h) (src : src_call) (s : State) :
    (s.ob.status = OB_STATUS_STARTUP ∨ s.ob.status = OB_STATUS_TUNE →
      (overwitch_j2o hdr src s).ob.j2o_rb = s.ob.j2o_rb) ∧
    (s.ob.status = OB_STATUS_RUN →
      src.gen_frames * s.ob.j2o_frame_bytes ≤ jack_ringbuffer_write_space s.ob.j2o_rb →
      (overwitch_j2o hdr src s).j2o_buf_out = src.out ∧
      (overwitch_j2o hdr src s).ob.j2o_rb.size = s.ob.j2o_rb.size ∧
      (overwitch_j2o hdr src s).ob.j2o_rb.buf =
        s.ob.j2o_rb.buf ++
          (List.range (src.gen_frames * s.ob.j2o_frame_bytes)).map
            (overwitch_j2o hdr src s).j2o_buf_out) ∧
    (s.ob.status = OB_STATUS_RUN →
      ¬ src.gen_frames * s.ob.j2o_frame_bytes ≤ jack_ringbuffer_write_space s.ob.j2o_rb →
      (overwitch_j2o hdr src s).ob.j2o_rb = s.ob.j2o_rb) := by
  refine ⟨?_, ?_, ?_⟩
  · intro h
    rw [j2o_ring]
    rcases h with h | h <;> simp [h, hdr.startup_lt_run, hdr.tune_lt_run]
  · intro h hfit
    have hout : (overwitch_j2o hdr src s).j2o_buf_out = src.out := by
      unfold overwitch_j2o
      simp only [src_callback_read]
      split_ifs <;> rfl
    rw [hout, j2o_ring, ringbuffer_write_fits _ _ _ hfit]
    simp [h, hfit]
  · intro h hfit
    rw [j2o_ring]
    simp [h, hfit]

/-- Witness of C9: the configured example state (8 byte frames, empty ring of
4096 bytes) and a converter call that generates 128 frames: nothing is written
in STARTUP, the 1024 bytes are appended in RUN. -/
theorem C9_j2o_writer_witness :
    (overwitch_j2o example_h example_src (configured_state OB_STATUS_STARTUP)).ob.j2o_rb
      = (configured_state OB_STATUS_STARTUP).ob.j2o_rb ∧
    (overwitch_j2o example_h example_src (configured_state OB_STATUS_RUN)).ob.j2o_rb.buf =
      (configured_state OB_STATUS_RUN).ob.j2o_rb.buf ++
        (List.range (example_src.gen_frames * (configured_state OB_STATUS_RUN).ob.j2o_frame_bytes)).map
          (overwitch_j2o example_h example_src (configured_state OB_STATUS_RUN)).j2o_buf_out :=
  ⟨(C9_j2o_writer example_h example_src (configured_state OB_STATUS_STARTUP)).1 (Or.inl rfl),
   ((C9_j2o_writer example_h example_src (configured_state OB_STATUS_RUN)).2.1 rfl
      (by decide)).2.2⟩

/-- C10 (cooperative stop).  The only status test on the j2o write path is
`status < OB_STATUS_RUN` (line 277), a comparison of enumerator values that
overbridge.h declares.  For every declaration `c` that gives STOP a smaller
value than RUN, as the spec has it (data is written "if status ≥ RUN", and a
stop makes the process callback cease writing to the j2o ring): a call of
`overwitch_j2o` whose status snapshot is STOP leaves the j2o ring buffer as it
was, whatever the converter generates; and in a process cycle that starts with
the status STOP the snapshot that `overwitch_j2o` takes is STOP,
`overwitch_process_cb` leaves the j2o ring buffer as it was, and the status is
still STOP after the cycle. -/
theorem C10_no_write_in_stop (c : overbridge_h) (m : math_h) (inp : process_in)
    (nframes : Nat) (s : State)
    (hc : c.status_value OB_STATUS_STOP < c.status_value OB_STATUS_RUN)
    (h : s.ob.status = OB_STATUS_STOP) :
    (overwitch_j2o c inp.j2o_src s).ob.j2o_rb = s.ob.j2o_rb ∧
    (overwitch_compute_ratios c m inp.current_usecs s).ob.status = OB_STATUS_STOP ∧
    (overwitch_process_cb c m inp nframes s).2.ob.j2o_rb = s.ob.j2o_rb ∧
    (overwitch_process_cb c m inp nframes s).2.ob.status = OB_STATUS_STOP := by
  have hst := compute_ratios_stop c m inp.current_usecs s h
  refine ⟨?_, hst, ?_, ?_⟩
  · rw [j2o_ring, h, if_pos hc]
  · rw [process_cb_j2o_ring, hst, if_pos hc]
  · rw [process_cb_status, hst]

/-- Witness of C10: the configured example state in STOP with an empty j2o ring
of 4096 bytes, the example declaration (STOP = 0, RUN = 3) and a cycle whose j2o
converter call generates 128 frames of 8 bytes: the ring is still empty after
the cycle. -/
theorem C10_no_write_in_stop_witness :
    example_h.status_value OB_STATUS_STOP < example_h.status_value OB_STATUS_RUN ∧
    (configured_state OB_STATUS_STOP).ob.status = OB_STATUS_STOP ∧
    (configured_state OB_STATUS_STOP).ob.j2o_rb.buf = [] ∧
    (overwitch_process_cb example_h example_math example_process_in 128
        (configured_state OB_STATUS_STOP)).2.ob.j2o_rb
      = (configured_state OB_STATUS_STOP).ob.j2o_rb :=
  ⟨by decide, rfl, rfl,
   (C10_no_write_in_stop example_h example_math example_process_in 128
      (configured_state OB_STATUS_STOP) (by decide) rfl).2.2.1⟩

/-- C11 (residual absorption at retune), the code at the failing input.  In
`absorb_state` the cycle at 6250 us moves STARTUP to TUNE with `k0 = 1000`,
`kj = 900`, `dob = 300` and `kdel = 264`: the error is `136`, `n = 136` is added to
`kj` (now `1036`) and the error of the claim, `err - n` (line 377), is `0`.  The
error recomputed as the code computes it takes `1000 - 1036` in the
`jack_nframes_t` variable `n` (line 334), which is `4294967260`, and is
`4294967296`: not `err - n`, and not in `[-0.5, 0.5)`. -/
theorem C11_recomputed_error_wraps :
    (overwitch_compute_ratios example_h example_math 6250 absorb_state).ob.status
      = OB_STATUS_TUNE ∧
    cycle_err 6250 absorb_state = 136 ∧
    (overwitch_compute_ratios example_h example_math 6250 absorb_state).kj = 1036 ∧
    time_error (to_uint32 (absorb_state.ob.i0_frames : Int))
        (to_uint32 (absorb_state.ob.i1_frames : Int))
        absorb_state.ob.i0_time absorb_state.ob.i1_time (((6250 : Nat) : ℚ) * (1 / 1000000))
        (overwitch_compute_ratios example_h example_math 6250 absorb_state).kj absorb_state.kdel
      = 4294967296 := by
  have hb : to_int32 (absorb_state.i + 1) = absorb_state.log_control_cycles ∧
      absorb_state.ob.status = OB_STATUS_STARTUP := ⟨by decide, rfl⟩
  have h0 : to_uint32 ((1000 : Nat) : Int) = 1000 := by decide
  have h1 : to_uint32 ((1168 : Nat) : Int) = 1168 := by decide
  have h2 : to_uint32 (((900 : Nat) : Int) + 0) = 900 := by decide
  have h3 : to_uint32 (((1168 : Nat) : Int) - ((1000 : Nat) : Int)) = 168 := by decide
  have h4 : to_uint32 (((1000 : Nat) : Int) - ((900 : Nat) : Int)) = 100 := by decide
  have h5 : to_uint32 (((1000 : Nat) : Int) - ((1036 : Nat) : Int)) = 4294967260 := by decide
  have herr : cycle_err 6250 absorb_state = 136 := by
    simp only [cycle_err, absorb_state, State.init, example_ob, time_error]
    rw [h0, h1, h2, h3, h4]
    norm_num
  have hkj : (overwitch_compute_ratios example_h example_math 6250 absorb_state).kj = 1036 := by
    rw [compute_ratios_kj_retune example_h _ _ _ hb, herr]
    have hf : ⌊(136 : ℚ) + 1 / 2⌋ = 136 := by
      rw [Int.floor_eq_iff]; norm_num
    rw [hf, double_to_int, c_trunc_intCast]
    decide
  refine ⟨?_, herr, hkj, ?_⟩
  · rw [compute_ratios_status]
    simp [hb.1, hb.2]
  · rw [hkj]
    simp only [absorb_state, State.init, example_ob, time_error]
    rw [h0, h1, h3, h5]
    norm_num

/-- C12 (o2j feeder priming and flush).  While `overwitch_o2j_reader` is not in
running mode, a call that finds fewer than `o2j_buf_size` readable bytes returns
`MAX_READ_FRAMES = 5`, leaves the o2j ring unchanged and stays in priming mode;
a call that finds at least `o2j_buf_size` readable bytes advances the read
position by the whole read space, so the ring is empty afterwards, and enters
running mode.  Once in running mode the feeder stays there: after one call,
after any number of calls, and after a whole process cycle. -/
theorem C12_priming_and_flush (hdr : overbridge_h) (s : State) :
    (s.running = false → jack_ringbuffer_read_space s.ob.o2j_rb < s.o2j_buf_size →
      (overwitch_o2j_reader s).1 = 5 ∧
      (overwitch_o2j_reader s).2.ob.o2j_rb = s.ob.o2j_rb ∧
      (overwitch_o2j_reader s).2.running = false) ∧
    (s.running = false → s.o2j_buf_size ≤ jack_ringbuffer_read_space s.ob.o2j_rb →
      (overwitch_o2j_reader s).2.ob.o2j_rb =
        jack_ringbuffer_read_advance s.ob.o2j_rb (jack_ringbuffer_read_space s.ob.o2j_rb) ∧
      jack_ringbuffer_read_space (overwitch_o2j_reader s).2.ob.o2j_rb = 0 ∧
      (overwitch_o2j_reader s).2.running = true) ∧
    (s.running = true →
      (overwitch_o2j_reader s).2.running = true ∧
      (∀ n : Nat, ((fun t => (overwitch_o2j_reader t).2)^[n] s).running = true) ∧
      (∀ (m : math_h) (inp : process_in) (nframes : Nat),
        (overwitch_process_cb hdr m inp nframes s).2.running = true)) := by
  refine ⟨?_, ?_, ?_⟩
  · intro h hlt
    unfold overwitch_o2j_reader
    simp [h, Nat.not_le.mpr hlt, MAX_READ_FRAMES]
  · intro h hge
    have hge' : s.o2j_buf_size ≤ s.ob.o2j_rb.buf.length := hge
    unfold overwitch_o2j_reader
    simp [h, hge', jack_ringbuffer_read_advance, jack_ringbuffer_read_space]
  · intro h
    exact ⟨o2j_reader_running s h, fun n => o2j_reader_iterate_running n s h,
      fun m inp nframes => process_cb_running hdr m inp nframes s h⟩

/-- Witness of C12: 3 readable bytes against `o2j_buf_size = 16` (priming), 20
readable bytes (flush), and a state in running mode. -/
theorem C12_priming_and_flush_witness :
    ((overwitch_o2j_reader (feeder_state false 1 [1, 2, 3])).1 = 5 ∧
      (overwitch_o2j_reader (feeder_state false 1 [1, 2, 3])).2.running = false) ∧
    (jack_ringbuffer_read_space
        (overwitch_o2j_reader (feeder_state false 1 (List.range 20))).2.ob.o2j_rb = 0 ∧
      (overwitch_o2j_reader (feeder_state false 1 (List.range 20))).2.running = true) ∧
    (overwitch_o2j_reader (feeder_state true 5 [])).2.running = true :=
  have h1 := (C12_priming_and_flush example_h (feeder_state false 1 [1, 2, 3])).1 rfl (by decide)
  have h2 := (C12_priming_and_flush example_h (feeder_state false 1 (List.range 20))).2.1 rfl
    (by decide)
  have h3 := (C12_priming_and_flush example_h (feeder_state true 5 [])).2.2 rfl
  ⟨⟨h1.1, h1.2.2⟩, ⟨h2.2.1, h2.2.2⟩, h3.1⟩

/-- C13 (o2j feeder running read is in whole frames).  In running mode, when the
read space `rs` of the o2j ring is at least `o2j_frame_bytes`,
`overwitch_o2j_reader` returns `f = min (rs / o2j_frame_bytes, MAX_READ_FRAMES)`
frames, removes exactly the oldest `f * o2j_frame_bytes` bytes from the ring, and
the first `f` frames of `o2j_buf_in` are these bytes in order.  (For
`o2j_frame_bytes = 0` the C division is undefined; the quotient of the embedding
is `0` there.) -/
theorem C13_running_read_whole_frames (s : State) (hr : s.running = true)
    (hrs : s.ob.o2j_frame_bytes ≤ jack_ringbuffer_read_space s.ob.o2j_rb) :
    (overwitch_o2j_reader s).1 =
      ((min (jack_ringbuffer_read_space s.ob.o2j_rb / s.ob.o2j_frame_bytes)
        MAX_READ_FRAMES : Nat) : Int) ∧
    min (jack_ringbuffer_read_space s.ob.o2j_rb / s.ob.o2j_frame_bytes) MAX_READ_FRAMES
        * s.ob.o2j_frame_bytes ≤ jack_ringbuffer_read_space s.ob.o2j_rb ∧
    (overwitch_o2j_reader s).2.ob.o2j_rb.buf =
      s.ob.o2j_rb.buf.drop
        (min (jack_ringbuffer_read_space s.ob.o2j_rb / s.ob.o2j_frame_bytes) MAX_READ_FRAMES
          * s.ob.o2j_frame_bytes) ∧
    (List.range
        (min (jack_ringbuffer_read_space s.ob.o2j_rb / s.ob.o2j_frame_bytes) MAX_READ_FRAMES
          * s.ob.o2j_frame_bytes)).map (overwitch_o2j_reader s).2.o2j_buf_in =
      s.ob.o2j_rb.buf.take
        (min (jack_ringbuffer_read_space s.ob.o2j_rb / s.ob.o2j_frame_bytes) MAX_READ_FRAMES
          * s.ob.o2j_frame_bytes) := by
  have hle : min (jack_ringbuffer_read_space s.ob.o2j_rb / s.ob.o2j_frame_bytes)
      MAX_READ_FRAMES * s.ob.o2j_frame_bytes ≤ jack_ringbuffer_read_space s.ob.o2j_rb :=
    le_trans (Nat.mul_le_mul_right _ (Nat.min_le_left _ _)) (Nat.div_mul_le_self _ _)
  have h := o2j_reader_running_read s hr hrs
  have hrd := ringbuffer_read_fits s.ob.o2j_rb s.o2j_buf_in _ hle
  refine ⟨h.1, hle, ?_, ?_⟩
  · rw [h.2.1, hrd.1]
  · rw [h.2.2, hrd.2.1]

/-- Witness of C13: running mode with 20 readable bytes and frames of 8 bytes:
2 frames, 16 bytes, are read. -/
theorem C13_running_read_whole_frames_witness :
    (overwitch_o2j_reader (feeder_state true 5 (List.range 20))).1 =
      ((min (jack_ringbuffer_read_space (feeder_state true 5 (List.range 20)).ob.o2j_rb
          / (feeder_state true 5 (List.range 20)).ob.o2j_frame_bytes)
        MAX_READ_FRAMES : Nat) : Int) ∧
    (overwitch_o2j_reader (feeder_state true 5 (List.range 20))).2.ob.o2j_rb.buf =
      (feeder_state true 5 (List.range 20)).ob.o2j_rb.buf.drop
        (min (jack_ringbuffer_read_space (feeder_state true 5 (List.range 20)).ob.o2j_rb
            / (feeder_state true 5 (List.range 20)).ob.o2j_frame_bytes) MAX_READ_FRAMES
          * (feeder_state true 5 (List.range 20)).ob.o2j_frame_bytes) :=
  have h := C13_running_read_whole_frames (feeder_state true 5 (List.range 20)) rfl (by decide)
  ⟨h.1, h.2.2.1⟩

/-- C14 (hold-last concealment), the code at the failing input.  The feeder is
in running mode, the ring is empty, frames are 8 bytes and the previous batch
had 5 frames, held in `o2j_buf_in` as the bytes `100 + k`; its last frame is the
bytes 132..139.  The call returns 5 frames and leaves the ring alone, but only
frame 0 of `o2j_buf_in` is the last frame: the returned frame 1 is still the old
frame 1 (bytes 108..115), and likewise frames 2 and 3. -/
theorem C14_only_first_frame_held :
    (overwitch_o2j_reader (feeder_state true 5 [])).1 = 5 ∧
    (overwitch_o2j_reader (feeder_state true 5 [])).2.ob.o2j_rb
      = (feeder_state true 5 []).ob.o2j_rb ∧
    (List.range 8).map (fun b => (feeder_state true 5 []).o2j_buf_in (4 * 8 + b))
      = [132, 133, 134, 135, 136, 137, 138, 139] ∧
    (List.range 8).map (fun b => (overwitch_o2j_reader (feeder_state true 5 [])).2.o2j_buf_in b)
      = [132, 133, 134, 135, 136, 137, 138, 139] ∧
    (List.range 8).map
        (fun b => (overwitch_o2j_reader (feeder_state true 5 [])).2.o2j_buf_in (1 * 8 + b))
      = [108, 109, 110, 111, 112, 113, 114, 115] := by
  have h := o2j_reader_hold_last (feeder_state true 5 []) rfl (by decide)
  refine ⟨h.1, h.2.1, by decide, ?_, ?_⟩
  · rw [h.2.2]; decide
  · rw [h.2.2]; decide

/-- C15 (j2o feeder on an empty queue), the claim as stated fails.  In
`queue_state 2` two frames (the bytes 1..16) are queued.  The first call returns
them and empties the queue; the second call finds the queue empty and returns
`bufsize = 2` frames, but the frames it hands over are the bytes of the earlier
read, not zeros. -/
theorem C15_empty_queue_repeats_last_read :
    (overwitch_j2o_reader (queue_state 2)).1 = 2 ∧
    (overwitch_j2o_reader (queue_state 2)).2.j2o_queue_len = 0 ∧
    (overwitch_j2o_reader (overwitch_j2o_reader (queue_state 2)).2).1 = 2 ∧
    (List.range 16).map (overwitch_j2o_reader (overwitch_j2o_reader (queue_state 2)).2).2.j2o_buf_in
      = [1, 2, 3, 4, 5, 6, 7, 8, 9, 10, 11, 12, 13, 14, 15, 16] := by
  have h1 := j2o_reader_nonempty (queue_state 2) (by decide)
  have h2 := j2o_reader_empty (overwitch_j2o_reader (queue_state 2)).2 h1.2.1
  refine ⟨h1.1, h1.2.1, ?_, ?_⟩
  · rw [h2]
    simp [overwitch_j2o_reader, queue_state]
  · rw [h2]
    simp only [h1.2.2]
    decide

/-- C15 (j2o feeder on an empty queue), amended.  For every state in which
`j2o_queue_len` is 0, `overwitch_j2o_reader` returns `bufsize` frames and changes
nothing: the frames it hands over are what `j2o_buf_in` already holds, so they
are zero when `j2o_buf_in` is still zero (as after the `memset` of line 587,
before any non-empty read).  When `j2o_queue_len = n > 0` it returns `n`, the
first `n` frames of `j2o_buf_in` are the `n` queued frames in order, and
`j2o_queue_len` becomes 0. -/
theorem C15_j2o_reader (s : State) :
    (s.j2o_queue_len = 0 →
      (overwitch_j2o_reader s).1 = (s.bufsize : Int) ∧
      (overwitch_j2o_reader s).2 = s ∧
      ((∀ k, s.j2o_buf_in k = 0) → ∀ k, (overwitch_j2o_reader s).2.j2o_buf_in k = 0)) ∧
    (0 < s.j2o_queue_len →
      (overwitch_j2o_reader s).1 = (s.j2o_queue_len : Int) ∧
      (∀ k, k < s.j2o_queue_len * s.ob.j2o_frame_bytes →
        (overwitch_j2o_reader s).2.j2o_buf_in k = s.j2o_queue k) ∧
      (overwitch_j2o_reader s).2.j2o_queue_len = 0) := by
  constructor
  · intro h
    rw [j2o_reader_empty s h]
    exact ⟨rfl, rfl, fun hz => hz⟩
  · intro h
    have hn := j2o_reader_nonempty s (Nat.pos_iff_ne_zero.mp h)
    refine ⟨hn.1, ?_, hn.2.1⟩
    intro k hk
    rw [hn.2.2]
    simp [memcpy, hk]

/-- Witness of C15: the initial buffer with an empty queue gives zeros; two
queued frames are handed over. -/
theorem C15_j2o_reader_witness :
    ((overwitch_j2o_reader (queue_state 0)).1 = ((queue_state 0).bufsize : Int) ∧
      ∀ k, (overwitch_j2o_reader (queue_state 0)).2.j2o_buf_in k = 0) ∧
    ((overwitch_j2o_reader (queue_state 2)).1 = ((queue_state 2).j2o_queue_len : Int) ∧
      (overwitch_j2o_reader (queue_state 2)).2.j2o_queue_len = 0) :=
  have h0 := (C15_j2o_reader (queue_state 0)).1 rfl
  have h2 := (C15_j2o_reader (queue_state 2)).2 (by decide)
  ⟨⟨h0.1, h0.2.2 (fun _ => rfl)⟩, ⟨h2.1, h2.2.2⟩⟩

/-- C16 (consumed-frames accounting), the claim as stated fails for the j2o
feeder.  In `queue_state 2` a call of `overwitch_j2o_reader` returns 2 frames and
`read_frames` stays 0; the next call (empty queue) returns `bufsize = 2` frames
and `read_frames` is still 0. -/
theorem C16_j2o_reader_does_not_count :
    (queue_state 2).read_frames = 0 ∧
    (overwitch_j2o_reader (queue_state 2)).1 = 2 ∧
    (overwitch_j2o_reader (queue_state 2)).2.read_frames = 0 ∧
    (overwitch_j2o_reader (overwitch_j2o_reader (queue_state 2)).2).1 = 2 ∧
    (overwitch_j2o_reader (overwitch_j2o_reader (queue_state 2)).2).2.read_frames = 0 := by
  have h1 := j2o_reader_nonempty (queue_state 2) (by decide)
  have h2 := j2o_reader_empty (overwitch_j2o_reader (queue_state 2)).2 h1.2.1
  refine ⟨rfl, h1.1, ?_, ?_, ?_⟩
  · rw [j2o_reader_read_frames]; rfl
  · rw [h2]
    simp [overwitch_j2o_reader, queue_state]
  · rw [j2o_reader_read_frames, j2o_reader_read_frames]; rfl

/-- C16 (consumed-frames accounting), amended.  Only the o2j feeder counts.
Every call of `overwitch_o2j_reader` adds the number of frames it returns to
`read_frames` (in `int` arithmetic, so exactly when the sum fits an `int`);
`overwitch_j2o_reader` leaves `read_frames` unchanged.  `overwitch_o2j` resets
`read_frames`, so after it, and after the whole process cycle, `read_frames` is
the total returned by the o2j feeder in this cycle; this is the value the next
call of `overwitch_compute_ratios` adds to `kj` (line 329). -/
theorem C16_read_frames_accounting (hdr : overbridge_h) (m : math_h)
    (inp : process_in) (nframes : Nat)
    (src : src_call) (s : State) :
    (overwitch_o2j_reader s).2.read_frames
      = to_int32 (s.read_frames + (overwitch_o2j_reader s).1) ∧
    (-2147483648 ≤ s.read_frames + (overwitch_o2j_reader s).1 →
      s.read_frames + (overwitch_o2j_reader s).1 ≤ 2147483647 →
      (overwitch_o2j_reader s).2.read_frames = s.read_frames + (overwitch_o2j_reader s).1) ∧
    (overwitch_j2o_reader s).2.read_frames = s.read_frames ∧
    (overwitch_o2j src s).read_frames
      = to_int32 (frames_returned overwitch_o2j_reader src.calls { s with read_frames := 0 }) ∧
    (overwitch_process_cb hdr m inp nframes s).2.read_frames
      = to_int32 (frames_returned overwitch_o2j_reader inp.o2j_src.calls
          { overwitch_compute_ratios hdr m inp.current_usecs s with read_frames := 0 }) ∧
    (¬ (to_int32 (s.i + 1) = s.log_control_cycles ∧ s.ob.status = OB_STATUS_STARTUP) →
      (overwitch_compute_ratios hdr m inp.current_usecs s).kj
        = to_uint32 ((s.kj : Int) + s.read_frames)) := by
  refine ⟨o2j_reader_read_frames s, ?_, j2o_reader_read_frames s, o2j_read_frames src s,
    process_cb_read_frames hdr m inp nframes s,
    compute_ratios_kj_no_retune hdr m inp.current_usecs s⟩
  intro h1 h2
  rw [o2j_reader_read_frames, to_int32_of_range _ h1 h2]

/-- Witness of C16: a priming call (5 frames returned) from `read_frames = 0`. -/
theorem C16_read_frames_accounting_witness :
    (overwitch_o2j_reader (feeder_state false 1 [1, 2, 3])).2.read_frames
      = (feeder_state false 1 [1, 2, 3]).read_frames
        + (overwitch_o2j_reader (feeder_state false 1 [1, 2, 3])).1 ∧
    (overwitch_compute_ratios example_h example_math example_process_in.current_usecs
        (feeder_state false 1 [1, 2, 3])).kj
      = to_uint32 (((feeder_state false 1 [1, 2, 3]).kj : Int)
          + (feeder_state false 1 [1, 2, 3]).read_frames) :=
  have h := C16_read_frames_accounting example_h example_math example_process_in 2 example_src
    (feeder_state false 1 [1, 2, 3])
  ⟨h.2.1 (by decide) (by decide), h.2.2.2.2.2 (by decide)⟩

/-- C17 (j2o fractional accumulator).  Start from `j2o_acc = 0` with a fixed
`bufsize = B` and run `overwitch_j2o` once per element of a sequence of j2o
ratios, each with frame counts that fit the `int` variables (`B < 2^30` and
`|B * (rho_i - 1)| <= 2^30`).  Then the accumulator stays below 1 in absolute
value, the total number of frames requested from the converter (the sum of
`frames = B + trunc (acc_i)`) is the sum of `B * rho_i` minus the final `j2o_acc`,
and so it differs from the ideal total by less than one frame. -/
theorem C17_j2o_accumulator (hdr : overbridge_h) (cs : List j2o_cycle) (s : State)
    (h0 : s.j2o_acc = 0) (hB : s.bufsize < 1073741824)
    (hr : ∀ c ∈ cs, |(s.bufsize : ℚ) * (c.ratio - 1)| ≤ 1073741824) :
    |(run_j2o hdr cs s).j2o_acc| < 1 ∧
    ((j2o_requested hdr cs s : Int) : ℚ)
      = (cs.map (fun c => (s.bufsize : ℚ) * c.ratio)).sum - (run_j2o hdr cs s).j2o_acc ∧
    |((j2o_requested hdr cs s : Int) : ℚ) - (cs.map (fun c => (s.bufsize : ℚ) * c.ratio)).sum|
      < 1 := by
  have h := run_j2o_accumulator hdr s.bufsize hB cs s rfl (by rw [h0]; norm_num) hr
  rw [h0, add_zero] at h
  refine ⟨h.1, h.2, ?_⟩
  rw [h.2, sub_sub_cancel_left, abs_neg]
  exact h.1

/-- Witness of C17: two frames per cycle, ratios 1.001 and 0.999. -/
theorem C17_j2o_accumulator_witness :
    |(run_j2o example_h example_j2o_cycles (queue_state 0)).j2o_acc| < 1 ∧
    ((j2o_requested example_h example_j2o_cycles (queue_state 0) : Int) : ℚ)
      = (example_j2o_cycles.map (fun c => ((queue_state 0).bufsize : ℚ) * c.ratio)).sum
        - (run_j2o example_h example_j2o_cycles (queue_state 0)).j2o_acc :=
  have h := C17_j2o_accumulator example_h example_j2o_cycles (queue_state 0) rfl (by decide)
    example_j2o_cycles_fit
  ⟨h.1, h.2.1⟩

/-- C18 (channel mapping of the process cycle).  Samples are `sample_bytes = 4`
bytes; `b` runs over the bytes of a sample.  For every frame `i < nframes`,
`overwitch_process_cb` stores sample `i * outputs + j` of `o2j_buf_out` into
sample `i` of host output port `j` for every `j < outputs`, and stores sample `i`
of host input port `j` into sample `i * inputs + j` of `j2o_aux` for every
`j < inputs`.  So with the same number `n` of channels, interleaving the
deinterleaved block gives back the original interleaved block. -/
theorem C18_channel_mapping (hdr : overbridge_h) (m : math_h)
    (inp : process_in) (nframes : Nat) (s : State) :
    (∀ i j b, i < nframes → j < s.ob.outputs → b < sample_bytes →
      (overwitch_process_cb hdr m inp nframes s).2.output_ports j (sample_bytes * i + b)
        = (overwitch_process_cb hdr m inp nframes s).2.o2j_buf_out
            (sample_bytes * (i * s.ob.outputs + j) + b)) ∧
    (∀ i j b, i < nframes → j < s.ob.inputs → b < sample_bytes →
      (overwitch_process_cb hdr m inp nframes s).2.j2o_aux
          (sample_bytes * (i * s.ob.inputs + j) + b)
        = inp.input_ports j (sample_bytes * i + b)) ∧
    (∀ (n : Nat) (block : Mem) (ports : Nat → Mem) (aux : Mem) (i j b : Nat),
      i < nframes → j < n → b < sample_bytes →
      interleave n nframes (deinterleave n nframes block ports) aux
          (sample_bytes * (i * n + j) + b)
        = block (sample_bytes * (i * n + j) + b)) := by
  have h := process_cb_buffers hdr m inp nframes s
  simp only [sample_bytes]
  refine ⟨?_, ?_, ?_⟩
  · intro i j b hi hj hb
    rw [h.2.1, h.1]
    exact deinterleave_sample _ _ _ _ i j b hi hj hb
  · intro i j b hi hj hb
    rw [h.2.2]
    exact interleave_sample _ _ _ _ i j b hi hj hb
  · intro n block ports aux i j b hi hj hb
    rw [interleave_sample _ _ _ _ i j b hi hj hb]
    exact deinterleave_sample _ _ _ _ i j b hi hj hb

/-- Witness of C18: the configured example state (2 inputs, 2 outputs), a cycle
of 128 frames, frame 5, channel 1, byte 2. -/
theorem C18_channel_mapping_witness :
    (overwitch_process_cb example_h example_math example_process_in 128
        (configured_state OB_STATUS_RUN)).2.output_ports 1 (sample_bytes * 5 + 2)
      = (overwitch_process_cb example_h example_math example_process_in 128
          (configured_state OB_STATUS_RUN)).2.o2j_buf_out
            (sample_bytes * (5 * (configured_state OB_STATUS_RUN).ob.outputs + 1) + 2) ∧
    (overwitch_process_cb example_h example_math example_process_in 128
        (configured_state OB_STATUS_RUN)).2.j2o_aux
          (sample_bytes * (5 * (configured_state OB_STATUS_RUN).ob.inputs + 1) + 2)
      = example_process_in.input_ports 1 (sample_bytes * 5 + 2) :=
  have h := C18_channel_mapping example_h example_math example_process_in 128
    (configured_state OB_STATUS_RUN)
  ⟨h.1 5 1 2 (by decide) (by decide) (by decide),
   h.2.1 5 1 2 (by decide) (by decide) (by decide)⟩

/-- C19 (the o2j feeder never signals end of input).  For every accepted buffer
size `bufsize = B >= 1`, every `o2j_frame_bytes >= 1`, every ring read space and
either mode, `overwitch_o2j_reader` returns a frame count `f` with
`1 <= f <= max (MAX_READ_FRAMES, B)`.  A count above `MAX_READ_FRAMES` is
returned only by the call that performs the priming flush: the feeder was not
in running mode and is in it afterwards (so there is one such call), `f = B`, and
`o2j_buf_in` is untouched. -/
theorem C19_o2j_reader_frames (s : State) (hB : 1 ≤ s.bufsize)
    (hfb : 1 ≤ s.ob.o2j_frame_bytes) :
    1 ≤ (overwitch_o2j_reader s).1 ∧
    (overwitch_o2j_reader s).1 ≤ ((max MAX_READ_FRAMES s.bufsize : Nat) : Int) ∧
    ((MAX_READ_FRAMES : Int) < (overwitch_o2j_reader s).1 →
      s.running = false ∧
      s.o2j_buf_size ≤ jack_ringbuffer_read_space s.ob.o2j_rb ∧
      (overwitch_o2j_reader s).2.running = true ∧
      (overwitch_o2j_reader s).1 = (s.bufsize : Int) ∧
      (overwitch_o2j_reader s).2.o2j_buf_in = s.o2j_buf_in) := by
  have hmax1 : (MAX_READ_FRAMES : Int) ≤ ((max MAX_READ_FRAMES s.bufsize : Nat) : Int) := by
    exact_mod_cast Nat.le_max_left _ _
  have hmax2 : (s.bufsize : Int) ≤ ((max MAX_READ_FRAMES s.bufsize : Nat) : Int) := by
    exact_mod_cast Nat.le_max_right _ _
  have h5 : (MAX_READ_FRAMES : Int) = 5 := rfl
  by_cases hr : s.running = true
  · by_cases hrs : s.ob.o2j_frame_bytes ≤ jack_ringbuffer_read_space s.ob.o2j_rb
    · have h := (o2j_reader_running_read s hr hrs).1
      have hpos : 1 ≤ jack_ringbuffer_read_space s.ob.o2j_rb / s.ob.o2j_frame_bytes :=
        Nat.div_pos hrs hfb
      have hge : (1 : Int) ≤ ((min (jack_ringbuffer_read_space s.ob.o2j_rb
          / s.ob.o2j_frame_bytes) MAX_READ_FRAMES : Nat) : Int) := by
        have : 1 ≤ min (jack_ringbuffer_read_space s.ob.o2j_rb / s.ob.o2j_frame_bytes)
            MAX_READ_FRAMES := Nat.le_min.mpr ⟨hpos, by decide⟩
        exact_mod_cast this
      have hle : ((min (jack_ringbuffer_read_space s.ob.o2j_rb
          / s.ob.o2j_frame_bytes) MAX_READ_FRAMES : Nat) : Int) ≤ (MAX_READ_FRAMES : Int) := by
        exact_mod_cast Nat.min_le_right _ _
      rw [h]
      exact ⟨hge, le_trans hle hmax1, fun hgt => absurd hgt (not_lt.mpr hle)⟩
    · have h := (o2j_reader_hold_last s hr (Nat.not_le.mp hrs)).1
      rw [h]
      exact ⟨by rw [h5]; decide, hmax1, fun hgt => absurd hgt (lt_irrefl _)⟩
  · have hr' : s.running = false := by simpa using hr
    by_cases hfl : s.o2j_buf_size ≤ jack_ringbuffer_read_space s.ob.o2j_rb
    · have h := o2j_reader_flush s hr' hfl
      rw [h.1]
      exact ⟨by exact_mod_cast hB, hmax2, fun _ => ⟨hr', hfl, h.2.1, rfl, h.2.2⟩⟩
    · have h := o2j_reader_priming s hr' (Nat.not_le.mp hfl)
      rw [h]
      exact ⟨by rw [h5]; decide, hmax1, fun hgt => absurd hgt (lt_irrefl _)⟩

/-- Witness of C19: a running read of 20 bytes with frames of 8 bytes and
`bufsize = 2`; and the priming flush with `bufsize = 8`, which returns 8 frames. -/
theorem C19_o2j_reader_frames_witness :
    (1 ≤ (overwitch_o2j_reader (feeder_state true 5 (List.range 20))).1 ∧
      (overwitch_o2j_reader (feeder_state true 5 (List.range 20))).1
        ≤ ((max MAX_READ_FRAMES (feeder_state true 5 (List.range 20)).bufsize : Nat) : Int)) ∧
    ((overwitch_o2j_reader (flush_state)).2.running = true ∧
      (overwitch_o2j_reader (flush_state)).1 = (flush_state.bufsize : Int)) :=
  have h := C19_o2j_reader_frames (feeder_state true 5 (List.range 20)) (by decide) (by decide)
  have hf := (C19_o2j_reader_frames flush_state (by decide) (by decide)).2.2 (by decide)
  ⟨⟨h.1, h.2.1⟩, ⟨hf.2.2.1, hf.2.2.2.1⟩⟩

end Overwitch
